import Mathlib

/-
  Verification development for docker-lib.js, the container-engine adapter of
  the extension installer.  The source file contains two revisions of the same
  module; definitions suffixed with rev2 model the second revision, the others
  model the first revision.  JavaScript objects used as string-keyed maps are
  modelled as association lists, undefined values as Option, and the local
  filesystem as an explicit record of directories and files together with
  lists of paths on which an operation is declared to fail (modelling genuine
  I/O errors of mkdirp / open / writeFile).
-/

set_option linter.unusedVariables false

namespace DockerLib

/-- Association list lookup, modelling a JavaScript object property read
(a missing key reads as undefined, that is none). -/
def assocGet {β : Type} : List (String × β) → String → Option β
  | [], _ => none
  | (k, v) :: rest, key => if k = key then some v else assocGet rest key

/-- Association list update, modelling a JavaScript object property write:
replaces the value when the key is present, appends the key otherwise. -/
def assocSet {β : Type} : List (String × β) → String → β → List (String × β)
  | [], key, v => [(key, v)]
  | (k, w) :: rest, key, v =>
    if k = key then (key, v) :: rest else (k, w) :: assocSet rest key v

/-- Key list of a JavaScript object used as a set of keys: adding a key that
is already present leaves the key list unchanged. -/
def insertKey (l : List String) (k : String) : List String :=
  if k ∈ l then l else l ++ [k]

/-- JavaScript truthiness of a possibly-undefined string: undefined and the
empty string are falsy, every other string is truthy. -/
def jsTruthy : Option String → Bool
  | none => false
  | some s => !(s == "")

/-- Removes the first occurrence of a character from a character list. -/
def removeFirstChar (c : Char) : List Char → List Char
  | [] => []
  | x :: xs => if x = c then xs else x :: removeFirstChar c xs

/-- Models the JavaScript replace call with a one-character slash pattern and
the empty replacement: removes the first slash only. -/
def jsReplaceFirstSlash (s : String) : String := ⟨removeFirstChar '/' s.data⟩

/-- Models the JavaScript test that indexOf of a slash equals zero: true
exactly when the first character is a slash. -/
def startsWithSlash (s : String) : Bool :=
  match s.data with
  | [] => false
  | c :: _ => c = '/'

/-- JavaScript lastIndexOf of a character: index of its last occurrence,
or -1 when absent. -/
def jsLastIndexOf (s : String) (c : Char) : Int :=
  match s.data.reverse.findIdx? (fun x => x = c) with
  | some i => (s.data.length : Int) - 1 - (i : Int)
  | none => -1

/-- JavaScript substring of s from position 0 to position e, a negative e
being clamped to 0. -/
def jsSubstring0 (s : String) (e : Int) : String := ⟨s.data.take e.toNat⟩

/-- Result record of the version call of the daemon. -/
structure DockerVersion where
  Version : String
  Os : String
  Arch : String
deriving DecidableEq, Repr

/-- One entry of a listContainers answer: the Names array and the raw
lifecycle State string. -/
structure ContainerInfo where
  Names : List String
  State : String
deriving DecidableEq, Repr

/-- One entry of a listImages answer. -/
structure ImageInfo where
  RepoTags : List String
deriving DecidableEq, Repr

/-- Result record of the module-local helper that splits a repo:tag string. -/
structure SplitResult where
  full_repo : String
  username : Option String
  repo : String
  tag : Option String
deriving DecidableEq, Repr

/-- Models the module-local split helper: fields = repo_tag.split on colon,
repo = fields 0 split on slash, tag = fields 1 when present, username and
repo taken from the first two slash-separated parts. -/
def _split (repo_tag : String) : SplitResult :=
  let fields := repo_tag.splitOn ":"
  let repoParts := (fields.getD 0 "").splitOn "/"
  let tag := if fields.length > 1 then some (fields.getD 1 "") else none
  if repoParts.length > 1 then
    { full_repo := fields.getD 0 ""
      username := some (repoParts.getD 0 "")
      repo := repoParts.getD 1 ""
      tag := tag }
  else
    { full_repo := fields.getD 0 ""
      username := none
      repo := repoParts.getD 0 ""
      tag := tag }

/-- Filesystem error: a missing file on an existence check, or a genuine
I/O error carrying a message. -/
inductive FsErr where
  | enoent
  | ioError (msg : String)
deriving DecidableEq, Repr

/-- Host filesystem model: the set of existing directories, the existing
files with their contents, and the paths on which mkdirp, open or writeFile
fail with a genuine I/O error. -/
structure FSModel where
  dirs : List String
  files : List (String × String)
  fail_mkdir : List String
  fail_open : List String
  fail_write : List String
deriving DecidableEq, Repr

/-- mkdirp: create a directory (with parents); succeeds and is a no-op when
the directory already exists; fails on the declared failure paths. -/
def FSModel.mkdirp (fs : FSModel) (p : String) : Except FsErr FSModel :=
  if p ∈ fs.fail_mkdir then .error (.ioError ("mkdir failed: " ++ p))
  else if p ∈ fs.dirs then .ok fs
  else .ok { fs with dirs := fs.dirs ++ [p] }

/-- fs.open for reading, used as an existence check: none on success, some
enoent when the file is absent, a genuine error on the declared paths. -/
def FSModel.openCheck (fs : FSModel) (p : String) : Option FsErr :=
  if p ∈ fs.fail_open then some (.ioError ("open failed: " ++ p))
  else if (assocGet fs.files p).isSome then none
  else some .enoent

/-- fs.writeFile: sets the contents of the file at p; fails on the declared
failure paths. -/
def FSModel.writeFile (fs : FSModel) (p : String) (contents : String) :
    Except FsErr FSModel :=
  if p ∈ fs.fail_write then .error (.ioError ("write failed: " ++ p))
  else .ok { fs with files := assocSet fs.files p contents }

/-- A filesystem with no injected I/O failures. -/
def benignFS (fs : FSModel) : Prop :=
  fs.fail_mkdir = [] ∧ fs.fail_open = [] ∧ fs.fail_write = []

/-- A device mapping pushed onto HostConfig.Devices. -/
structure DeviceMapping where
  PathOnHost : String
  PathInContainer : String
  CgroupPermissions : String
deriving DecidableEq, Repr

/-- The HostConfig part of a container-creation configuration, with its
optionally-present Devices and Binds lists. -/
structure HostConfigM where
  Devices : Option (List DeviceMapping)
  Binds : Option (List String)
deriving DecidableEq, Repr

/-- Container-creation configuration, restricted to the fields the adapter
reads or writes: Env, the key set of Volumes, and HostConfig. -/
structure Config where
  Env : Option (List String)
  Volumes : Option (List String)
  HostConfig : Option HostConfigM
deriving DecidableEq, Repr

/-- config.Volumes with key k set to an empty object.  The install code
guarantees Volumes is present before this is reached. -/
def Config.addVolumeKey (cfg : Config) (k : String) : Config :=
  { cfg with Volumes := some (insertKey (cfg.Volumes.getD []) k) }

/-- config.HostConfig.Binds.push entry.  The install code guarantees
HostConfig and Binds are present before this is reached. -/
def Config.pushBind (cfg : Config) (entry : String) : Config :=
  let hc := cfg.HostConfig.getD { Devices := none, Binds := none }
  { cfg with HostConfig := some { hc with Binds := some (hc.Binds.getD [] ++ [entry]) } }

/-- The bind-mount list of a configuration, empty when absent. -/
def cfgBinds (cfg : Config) : List String :=
  match cfg.HostConfig with
  | some hc => hc.Binds.getD []
  | none => []

/-- A named volume resolved from a sibling container (source path and name). -/
structure Volume where
  source : String
  name : String
deriving DecidableEq, Repr

/-- The bind_props argument of the first-revision install: a sibling name,
the bind root, the binds subpath, and the volume field the install assigns. -/
structure BindProps where
  name : String
  root : String
  binds_path : String
  volume : Option Volume
deriving DecidableEq, Repr

/-- An image descriptor: repo, per-architecture tags, container-creation
configuration, and the optionally-declared binds list. -/
structure Image where
  repo : String
  tags : List (String × String)
  config : Config
  binds : Option (List String)
deriving DecidableEq, Repr

/-- Install-time options: environment overrides and a device list. -/
structure InstallOptions where
  env : Option (List (String × String))
  devices : Option (List String)
deriving DecidableEq, Repr

/-- Result of one provisioning step or of the whole provisioning walk: the
(mutated) configuration, the filesystem, and the error passed to the
completion callback, if any. -/
structure CbpfResult where
  config : Config
  fs : FSModel
  err : Option FsErr
deriving DecidableEq, Repr

/-- binds_path of the first-revision walk: bind_props.root ++
bind_props.binds_path. -/
def bindsPathOf (bp : BindProps) : String := bp.root ++ bp.binds_path

/-- full_path of the first-revision walk: the binds path followed by the bind
up to (excluding) its last slash. -/
def fullPathOf (bp : BindProps) (b : String) : String :=
  bindsPathOf bp ++ jsSubstring0 b (jsLastIndexOf b '/')

/-- full_name of the first-revision walk: the binds path followed by the
whole bind. -/
def fullNameOf (bp : BindProps) (b : String) : String := bindsPathOf bp ++ b

/-- full_volume_name of the first-revision walk: rooted in the resolved
volume source when a volume was found, in the host binds path otherwise. -/
def fullVolumeNameOf (bp : BindProps) (b : String) : String :=
  match bp.volume with
  | some v => v.source ++ bp.binds_path ++ b
  | none => fullNameOf bp b

/-- The bind-mount entry pushed for one bind by the first-revision walk. -/
def bindEntryOf (bp : BindProps) (b : String) : String :=
  fullVolumeNameOf bp b ++ ":" ++ b

/-- full_path of the second-revision walk. -/
def fullPathOf2 (binds_path b : String) : String :=
  binds_path ++ jsSubstring0 b (jsLastIndexOf b '/')

/-- full_name of the second-revision walk. -/
def fullNameOf2 (binds_path b : String) : String := binds_path ++ b

/-- The bind-mount entry pushed for one bind by the second-revision walk. -/
def bindEntryOf2 (binds_path b : String) : String :=
  fullNameOf2 binds_path b ++ ":" ++ b

/-- Body of the first-revision _create_bind_path_and_file at one index i:
when binds at i starts with a slash, mkdirp the directory part, record the
volume key and push the bind entry, then check the file and create it empty
when absent; a non-absolute bind is left untouched.  (The recursion of the
source is factored into the driver cbpfRun below; the source continues with
index i-1 exactly when no error was delivered.) -/
def cbpf1_step (bp : BindProps) (binds : List String) (i : Nat)
    (cfg : Config) (fs : FSModel) : CbpfResult :=
  let b := binds.getD i ""
  if startsWithSlash b then
    match fs.mkdirp (fullPathOf bp b) with
    | .error e => { config := cfg, fs := fs, err := some e }
    | .ok fs1 =>
      let cfg1 := (cfg.addVolumeKey b).pushBind (bindEntryOf bp b)
      match fs1.openCheck (fullNameOf bp b) with
      | none => { config := cfg1, fs := fs1, err := none }
      | some FsErr.enoent =>
        match fs1.writeFile (fullNameOf bp b) "" with
        | .error e => { config := cfg1, fs := fs1, err := some e }
        | .ok fs2 => { config := cfg1, fs := fs2, err := none }
      | some e => { config := cfg1, fs := fs1, err := some e }
  else { config := cfg, fs := fs, err := none }

/-- Body of the second-revision _create_bind_path_and_file at one index i:
identical to the first revision except that there is no absolute-path check
inside the walk (every visited bind is provisioned) and no volume, the host
path being binds_path ++ the bind itself. -/
def cbpf2_step (binds_path : String) (binds : List String) (i : Nat)
    (cfg : Config) (fs : FSModel) : CbpfResult :=
  let b := binds.getD i ""
  match fs.mkdirp (fullPathOf2 binds_path b) with
  | .error e => { config := cfg, fs := fs, err := some e }
  | .ok fs1 =>
    let cfg1 := (cfg.addVolumeKey b).pushBind (bindEntryOf2 binds_path b)
    match fs1.openCheck (fullNameOf2 binds_path b) with
    | none => { config := cfg1, fs := fs1, err := none }
    | some FsErr.enoent =>
      match fs1.writeFile (fullNameOf2 binds_path b) "" with
      | .error e => { config := cfg1, fs := fs1, err := some e }
      | .ok fs2 => { config := cfg1, fs := fs2, err := none }
    | some e => { config := cfg1, fs := fs1, err := some e }

/-- Driver of the provisioning recursion, shared by both revisions: perform
the step at the current index; on error stop and deliver the error; when the
index is nonzero continue with index - 1, otherwise complete without error.
This is exactly the control flow of _create_bind_path_and_file, whose each
branch either calls cb with an error, recurses when count is nonzero, or
calls cb without argument. -/
def cbpfRun (step : Nat → Config → FSModel → CbpfResult) :
    Nat → Config → FSModel → CbpfResult
  | count, cfg, fs =>
    let r := step count cfg fs
    if r.err.isSome then r
    else
      match count with
      | 0 => r
      | c + 1 => cbpfRun step c r.config r.fs

/-- First-revision _create_bind_path_and_file, walking from index count down
to 0. -/
def _create_bind_path_and_file (bp : BindProps) (binds : List String)
    (count : Nat) (cfg : Config) (fs : FSModel) : CbpfResult :=
  cbpfRun (cbpf1_step bp binds) count cfg fs

/-- Second-revision _create_bind_path_and_file, walking from index count down
to 0. -/
def _create_bind_path_and_file_rev2 (binds_path : String) (binds : List String)
    (count : Nat) (cfg : Config) (fs : FSModel) : CbpfResult :=
  cbpfRun (cbpf2_step binds_path binds) count cfg fs

/-- Options processing of the first-revision install: append NAME=VALUE for
each env entry (creating Env when absent), and a device mapping with rwm
permission for each device (creating HostConfig and Devices when absent). -/
def processOptions (cfg : Config) (options : Option InstallOptions) : Config :=
  match options with
  | none => cfg
  | some o =>
    let cfg1 :=
      match o.env with
      | none => cfg
      | some envs =>
        { cfg with Env := some (cfg.Env.getD [] ++ envs.map (fun p => p.1 ++ "=" ++ p.2)) }
    match o.devices with
    | none => cfg1
    | some devs =>
      let hc := cfg1.HostConfig.getD { Devices := none, Binds := none }
      { cfg1 with
        HostConfig := some
          { hc with
            Devices := some (hc.Devices.getD [] ++ devs.map (fun d =>
              { PathOnHost := d, PathInContainer := d, CgroupPermissions := "rwm" })) } }

/-- Options processing of the second-revision install: env entries only. -/
def processOptionsRev2 (cfg : Config) (options : Option InstallOptions) : Config :=
  match options with
  | none => cfg
  | some o =>
    match o.env with
    | none => cfg
    | some envs =>
      { cfg with Env := some (cfg.Env.getD [] ++ envs.map (fun p => p.1 ++ "=" ++ p.2)) }

/-- The three initializations guarding the binds block of install: ensure
config.Volumes, config.HostConfig and config.HostConfig.Binds exist. -/
def prepBindsConfig (cfg : Config) : Config :=
  let cfg1 := { cfg with Volumes := some (cfg.Volumes.getD []) }
  let hc := cfg1.HostConfig.getD { Devices := none, Binds := none }
  { cfg1 with HostConfig := some { hc with Binds := some (hc.Binds.getD []) } }

/-- The error string of the architecture-failure branch of install. -/
def archMsg (v : DockerVersion) : String :=
  "No image available for \"" ++ v.Arch ++ "\" architecture"

/-- Observable outcome of an install call: crash models the thrown undefined
access of the failure branch when docker_version is undefined; archError and
bindError model a completion-callback invocation with that error; noCallback
models the paths that return without invoking the callback and without
reaching _install; proceed models reaching _install (pull then create) with
the assembled repo tag and configuration. -/
inductive InstallOutcome where
  | crash
  | archError (msg : String)
  | noCallback (cfg : Config) (fs : FSModel)
  | bindError (e : FsErr) (cfg : Config) (fs : FSModel)
  | proceed (repo_tag : String) (cfg : Config) (fs : FSModel)
deriving DecidableEq, Repr

/-- True exactly on the outcome that neither invokes the completion callback
nor reaches pull/create. -/
def InstallOutcome.isNoCallback : InstallOutcome → Bool
  | .noCallback _ _ => true
  | _ => false

/-- First-revision install.  The daemon answer of _get_volume (the volume the
sibling container exposes, if any) is passed in as the volume argument; the
filesystem is passed explicitly.  Mirrors the source: architecture check,
options processing, binds block with volume resolution and the provisioning
walk, the read-only volume mount, then hand-off to _install. -/
def install (docker_version : Option DockerVersion) (image : Option Image)
    (bind_props : Option BindProps) (options : Option InstallOptions)
    (volume : Option Volume) (fs : FSModel) : InstallOutcome :=
  match docker_version with
  | none =>
    -- The failure branch reads docker_version.Arch: with docker_version
    -- undefined the branch itself throws instead of invoking the callback.
    .crash
  | some v =>
    match image with
    | none => .archError (archMsg v)
    | some img =>
      match assocGet img.tags v.Arch with
      | none => .archError (archMsg v)
      | some tagv =>
        if tagv = "" then .archError (archMsg v)
        else
          let repo_tag_string := img.repo ++ ":" ++ tagv
          let cfg0 := processOptions img.config options
          match img.binds, bind_props with
          | some bs, some bp0 =>
            let cfg1 := prepBindsConfig cfg0
            let bp := { bp0 with volume := volume }
            match bs.length with
            | 0 => .noCallback cfg1 fs
            | c + 1 =>
              let r := _create_bind_path_and_file bp bs c cfg1 fs
              match r.err with
              | some e => .bindError e r.config r.fs
              | none =>
                let cfg2 :=
                  match volume with
                  | some vol =>
                    if (cfgBinds r.config).length ≠ 0 then
                      (r.config.addVolumeKey bp0.root).pushBind
                        (vol.name ++ ":" ++ bp0.root ++ ":ro")
                    else r.config
                  | none => r.config
                .proceed repo_tag_string cfg2 r.fs
          | _, _ => .noCallback cfg0 fs

/-- Second-revision install: binds_path replaces bind_props (the empty string
being falsy skips the binds block), no devices and no volume logic, and the
walk is only started when the last declared bind is absolute. -/
def installRev2 (docker_version : Option DockerVersion) (image : Option Image)
    (binds_path : Option String) (options : Option InstallOptions)
    (fs : FSModel) : InstallOutcome :=
  match docker_version with
  | none => .crash
  | some v =>
    match image with
    | none => .archError (archMsg v)
    | some img =>
      match assocGet img.tags v.Arch with
      | none => .archError (archMsg v)
      | some tagv =>
        if tagv = "" then .archError (archMsg v)
        else
          let repo_tag_string := img.repo ++ ":" ++ tagv
          let cfg0 := processOptionsRev2 img.config options
          match img.binds, binds_path with
          | some bs, some bpath =>
            if bpath = "" then .noCallback cfg0 fs
            else
              let cfg1 := prepBindsConfig cfg0
              match bs.length with
              | 0 => .noCallback cfg1 fs
              | c + 1 =>
                if startsWithSlash (bs.getD c "") then
                  let r := _create_bind_path_and_file_rev2 bpath bs c cfg1 fs
                  match r.err with
                  | some e => .bindError e r.config r.fs
                  | none => .proceed repo_tag_string r.config r.fs
                else .noCallback cfg1 fs
          | _, _ => .noCallback cfg0 fs

/-- Return record of get_status. -/
structure StatusResult where
  state : Option String
  version : Option String
  tag : Option String
deriving DecidableEq, Repr

/-- First-revision get_status over the process-wide installed and states maps
and the stored daemon version: with a (truthy) name, look up the installed
tag; state is not_installed when the tag is falsy, otherwise the cached raw
state with created and exited converted to the generic stopped. -/
def get_status (installed : List (String × String)) (states : List (String × String))
    (docker_version : Option DockerVersion) (name : Option String) : StatusResult :=
  let tag := if jsTruthy name then assocGet installed (name.getD "") else none
  let version :=
    if jsTruthy name then none
    else match docker_version with
      | some v => some v.Version
      | none => none
  if jsTruthy tag then
    let st := assocGet states (name.getD "")
    let st2 : Option String :=
      match st with
      | some s => if s = "created" ∨ s = "exited" then some "stopped" else some s
      | none => none
    { state := st2, version := version, tag := tag }
  else
    { state := some "not_installed", version := version, tag := tag }

/-- query_updates (textually identical in both revisions): with a truthy name,
an object holding exactly the name when its installed tag is truthy; without
a name, the whole installed record.  It performs no daemon call: it is a pure
function of the installed map by construction. -/
def query_updates (installed : List (String × String)) (name : Option String) :
    List (String × String) :=
  if jsTruthy name then
    let n := name.getD ""
    match assocGet installed n with
    | some t => if t = "" then [] else [(n, t)]
    | none => []
  else installed

/-- The states-map update of start: after the start call, inspect the
container; when the inspect succeeds its State.Status (the inspect argument
here) overwrites the cached state unconditionally. -/
def start_states (states : List (String × String)) (name : String)
    (inspect : Option String) : List (String × String) :=
  match inspect with
  | some status => assocSet states name status
  | none => states

/-- The states-map update of stop: identical refresh to start, followed by
the completion callback. -/
def stop_states (states : List (String × String)) (name : String)
    (inspect : Option String) : List (String × String) :=
  match inspect with
  | some status => assocSet states name status
  | none => states

/-- Accumulator of the first-revision _query_installs nest: the installs map
being built and the process-wide states map being refreshed. -/
structure QIAcc where
  installs : List (String × Option String)
  states : List (String × String)
deriving DecidableEq, Repr

/-- The states/installs refresh nest of the first-revision _query_installs:
for each image, each of its repo tags, and each listed container whose first
name (first slash removed) equals the repo part, record the tag in installs
and overwrite the cached state with the lowercased container state unless the
cached state is terminated. -/
def query_installs_refresh (images : List ImageInfo) (containers : List ContainerInfo)
    (states0 : List (String × String)) : QIAcc :=
  images.foldl (fun acc image_info =>
    image_info.RepoTags.foldl (fun acc repo_tag =>
      let fields := _split repo_tag
      containers.foldl (fun acc container =>
        if jsReplaceFirstSlash (container.Names.getD 0 "") = fields.repo then
          { installs := assocSet acc.installs fields.repo fields.tag
            states :=
              if assocGet acc.states fields.repo = some "terminated" then acc.states
              else assocSet acc.states fields.repo container.State.toLower }
        else acc) acc) acc)
    { installs := [], states := states0 }

/-- The states refresh of the second-revision _query_installs: with a name,
overwrite that name with each listed container state unless the cached state
is terminated; without a name, overwrite the entry of each container (first
name, first slash removed) unconditionally. -/
def query_installs_refresh_rev2 (name : Option String)
    (containers : List ContainerInfo) (states0 : List (String × String)) :
    List (String × String) :=
  containers.foldl (fun st container =>
    match name with
    | some n =>
      if assocGet st n = some "terminated" then st
      else assocSet st n container.State.toLower
    | none =>
      assocSet st (jsReplaceFirstSlash (container.Names.getD 0 ""))
        container.State.toLower) states0

/-- Filesystem extension order: everything present stays present with the
same contents, and the injected failure sets are unchanged. -/
def FsLe (fs fs' : FSModel) : Prop :=
  (∀ d, d ∈ fs.dirs → d ∈ fs'.dirs) ∧
  (∀ p c, assocGet fs.files p = some c → assocGet fs'.files p = some c) ∧
  fs'.fail_mkdir = fs.fail_mkdir ∧ fs'.fail_open = fs.fail_open ∧
  fs'.fail_write = fs.fail_write

/-- Concatenation of the per-index bind entries in walk order: index count
first, then count - 1, down to 0. -/
def catEntries (el : Nat → List String) : Nat → List String
  | 0 => el 0
  | c + 1 => el (c + 1) ++ catEntries el c

/-- The binds visited by the walk, in walk order: index count first, down
to index 0. -/
def procOrder (binds : List String) : Nat → List String
  | 0 => [binds.getD 0 ""]
  | c + 1 => binds.getD (c + 1) "" :: procOrder binds c

theorem assocGet_assocSet_self {β : Type} (m : List (String × β)) (k : String) (v : β) :
    assocGet (assocSet m k v) k = some v := by
  induction m with
  | nil => simp [assocSet, assocGet]
  | cons hd tl ih =>
    obtain ⟨k', v'⟩ := hd
    by_cases h : k' = k
    · simp [assocSet, assocGet, h]
    · simp [assocSet, assocGet, h, ih]

theorem assocGet_assocSet_ne {β : Type} (m : List (String × β)) (k k' : String) (v : β)
    (h : k' ≠ k) : assocGet (assocSet m k' v) k = assocGet m k := by
  induction m with
  | nil => simp [assocSet, assocGet, h]
  | cons hd tl ih =>
    obtain ⟨q, w⟩ := hd
    by_cases hq : q = k'
    · subst hq
      simp [assocSet, assocGet, h]
    · by_cases hk : q = k <;> simp [assocSet, assocGet, hq, hk, ih, Ne.symm h]

theorem FsLe.refl (fs : FSModel) : FsLe fs fs :=
  ⟨fun _ h => h, fun _ _ h => h, rfl, rfl, rfl⟩

theorem FsLe.trans {fs1 fs2 fs3 : FSModel} (h1 : FsLe fs1 fs2) (h2 : FsLe fs2 fs3) :
    FsLe fs1 fs3 :=
  ⟨fun d hd => h2.1 d (h1.1 d hd),
   fun p c hc => h2.2.1 p c (h1.2.1 p c hc),
   h2.2.2.1.trans h1.2.2.1, h2.2.2.2.1.trans h1.2.2.2.1, h2.2.2.2.2.trans h1.2.2.2.2⟩

theorem benignFS_of_FsLe {fs fs' : FSModel} (hle : FsLe fs fs') (hb : benignFS fs) :
    benignFS fs' :=
  ⟨hle.2.2.1.trans hb.1, hle.2.2.2.1.trans hb.2.1, hle.2.2.2.2.trans hb.2.2⟩

theorem mkdirp_ok (fs fs' : FSModel) (p : String) (h : fs.mkdirp p = .ok fs') :
    FsLe fs fs' ∧ p ∈ fs'.dirs ∧ fs'.files = fs.files := by
  unfold FSModel.mkdirp at h
  split at h
  · cases h
  · split at h
    · cases h
      exact ⟨FsLe.refl _, by assumption, rfl⟩
    · cases h
      refine ⟨⟨fun d hd => ?_, fun _ _ hc => hc, rfl, rfl, rfl⟩, ?_, rfl⟩
      · exact List.mem_append_left _ hd
      · exact List.mem_append_right _ (List.mem_singleton.mpr rfl)

theorem mkdirp_noop (fs : FSModel) (p : String) (hf : p ∉ fs.fail_mkdir)
    (hd : p ∈ fs.dirs) : fs.mkdirp p = .ok fs := by
  unfold FSModel.mkdirp
  simp [hf, hd]

theorem mkdirp_ne_error (fs : FSModel) (p : String) (hf : p ∉ fs.fail_mkdir) (e : FsErr) :
    fs.mkdirp p ≠ .error e := by
  unfold FSModel.mkdirp
  split
  · exact absurd (by assumption) hf
  · split <;> simp

theorem openCheck_none_isSome (fs : FSModel) (p : String) (h : fs.openCheck p = none) :
    (assocGet fs.files p).isSome = true := by
  unfold FSModel.openCheck at h
  split at h
  · cases h
  · split at h
    · assumption
    · cases h

theorem openCheck_enoent_absent (fs : FSModel) (p : String)
    (h : fs.openCheck p = some .enoent) : assocGet fs.files p = none := by
  unfold FSModel.openCheck at h
  split at h
  · cases h
  · split at h
    · cases h
    · exact Option.eq_none_iff_forall_not_mem.mpr (fun c hc => by
        rename_i hns
        exact hns (Option.isSome_iff_exists.mpr ⟨c, hc⟩))

theorem openCheck_none_of_present (fs : FSModel) (p : String) (hf : p ∉ fs.fail_open)
    (hp : (assocGet fs.files p).isSome = true) : fs.openCheck p = none := by
  unfold FSModel.openCheck
  simp [hf, hp]

theorem openCheck_benign (fs : FSModel) (p : String) (hf : p ∉ fs.fail_open) :
    fs.openCheck p = none ∨ fs.openCheck p = some .enoent := by
  unfold FSModel.openCheck
  split
  · exact absurd (by assumption) hf
  · split
    · exact Or.inl rfl
    · exact Or.inr rfl

theorem writeFile_ok (fs fs' : FSModel) (p c : String) (h : fs.writeFile p c = .ok fs') :
    fs' = { fs with files := assocSet fs.files p c } := by
  unfold FSModel.writeFile at h
  split at h
  · cases h
  · cases h
    rfl

theorem writeFile_ne_error (fs : FSModel) (p c : String) (hf : p ∉ fs.fail_write)
    (e : FsErr) : fs.writeFile p c ≠ .error e := by
  unfold FSModel.writeFile
  split
  · exact absurd (by assumption) hf
  · simp

theorem writeFile_ok_mono (fs fs' : FSModel) (p c : String)
    (habs : assocGet fs.files p = none) (h : fs.writeFile p c = .ok fs') :
    FsLe fs fs' ∧ (assocGet fs'.files p).isSome = true := by
  have h' := writeFile_ok fs fs' p c h
  subst h'
  refine ⟨⟨fun d hd => hd, fun q w hw => ?_, rfl, rfl, rfl⟩, ?_⟩
  · have hne : p ≠ q := fun hpq => by
      subst hpq
      rw [habs] at hw
      cases hw
    rw [assocGet_assocSet_ne _ _ _ _ hne]
    exact hw
  · simp [assocGet_assocSet_self]

theorem cfgBinds_pushBind (cfg : Config) (entry : String) :
    cfgBinds (cfg.pushBind entry) = cfgBinds cfg ++ [entry] := by
  unfold Config.pushBind cfgBinds
  cases cfg.HostConfig <;> simp

theorem cfgBinds_addVolumeKey (cfg : Config) (k : String) :
    cfgBinds (cfg.addVolumeKey k) = cfgBinds cfg := by
  unfold Config.addVolumeKey cfgBinds
  cases cfg.HostConfig <;> simp


theorem cbpf1_step_mono (bp : BindProps) (binds : List String) (i : Nat)
    (cfg : Config) (fs : FSModel) : FsLe fs (cbpf1_step bp binds i cfg fs).fs := by
  simp only [cbpf1_step]
  by_cases habs : startsWithSlash (binds.getD i "") = true
  · rw [if_pos habs]
    rcases hmk : fs.mkdirp (fullPathOf bp (binds.getD i "")) with e | fs1
    · exact FsLe.refl fs
    · dsimp only
      have h1 := (mkdirp_ok _ _ _ hmk).1
      rcases hoc : fs1.openCheck (fullNameOf bp (binds.getD i "")) with _ | e
      · exact h1
      · rcases e with _ | msg
        · dsimp only
          rcases hwr : fs1.writeFile (fullNameOf bp (binds.getD i "")) "" with e | fs2
          · exact h1
          · dsimp only
            have habs2 : assocGet fs1.files (fullNameOf bp (binds.getD i "")) = none :=
              openCheck_enoent_absent _ _ hoc
            exact h1.trans (writeFile_ok_mono _ _ _ _ habs2 hwr).1
        · exact h1
  · rw [if_neg habs]
    exact FsLe.refl fs

theorem cbpf1_step_binds (bp : BindProps) (binds : List String) (i : Nat)
    (cfg : Config) (fs : FSModel)
    (h : (cbpf1_step bp binds i cfg fs).err = none) :
    cfgBinds (cbpf1_step bp binds i cfg fs).config =
      cfgBinds cfg ++
        (if startsWithSlash (binds.getD i "") = true then
          [bindEntryOf bp (binds.getD i "")] else []) := by
  revert h
  simp only [cbpf1_step]
  by_cases habs : startsWithSlash (binds.getD i "") = true
  · rw [if_pos habs, if_pos habs]
    rcases hmk : fs.mkdirp (fullPathOf bp (binds.getD i "")) with e | fs1
    · intro h
      cases h
    · dsimp only
      rcases hoc : fs1.openCheck (fullNameOf bp (binds.getD i "")) with _ | e
      · intro _
        simp [cfgBinds_pushBind, cfgBinds_addVolumeKey]
      · rcases e with _ | msg
        · dsimp only
          rcases hwr : fs1.writeFile (fullNameOf bp (binds.getD i "")) "" with e | fs2
          · intro h
            cases h
          · intro _
            simp [cfgBinds_pushBind, cfgBinds_addVolumeKey]
        · intro h
          cases h
  · rw [if_neg habs, if_neg habs]
    intro _
    simp

theorem cbpf1_step_provisions (bp : BindProps) (binds : List String) (i : Nat)
    (cfg : Config) (fs : FSModel)
    (h : (cbpf1_step bp binds i cfg fs).err = none)
    (habs : startsWithSlash (binds.getD i "") = true) :
    fullPathOf bp (binds.getD i "") ∈ (cbpf1_step bp binds i cfg fs).fs.dirs ∧
      (assocGet (cbpf1_step bp binds i cfg fs).fs.files
        (fullNameOf bp (binds.getD i ""))).isSome = true := by
  revert h
  simp only [cbpf1_step]
  rw [if_pos habs]
  rcases hmk : fs.mkdirp (fullPathOf bp (binds.getD i "")) with e | fs1
  · intro h
    cases h
  · dsimp only
    obtain ⟨hle1, hdir1, hfiles1⟩ := mkdirp_ok _ _ _ hmk
    rcases hoc : fs1.openCheck (fullNameOf bp (binds.getD i "")) with _ | e
    · intro _
      exact ⟨hdir1, openCheck_none_isSome _ _ hoc⟩
    · rcases e with _ | msg
      · dsimp only
        rcases hwr : fs1.writeFile (fullNameOf bp (binds.getD i "")) "" with e | fs2
        · intro h
          cases h
        · intro _
          have habs2 : assocGet fs1.files (fullNameOf bp (binds.getD i "")) = none :=
            openCheck_enoent_absent _ _ hoc
          obtain ⟨hle2, hsome⟩ := writeFile_ok_mono _ _ _ _ habs2 hwr
          exact ⟨hle2.1 _ hdir1, hsome⟩
      · intro h
        cases h

theorem cbpf1_step_benign (bp : BindProps) (binds : List String) (i : Nat)
    (cfg : Config) (fs : FSModel) (hb : benignFS fs) :
    (cbpf1_step bp binds i cfg fs).err = none ∧
      benignFS (cbpf1_step bp binds i cfg fs).fs := by
  simp only [cbpf1_step]
  by_cases habs : startsWithSlash (binds.getD i "") = true
  · rw [if_pos habs]
    rcases hmk : fs.mkdirp (fullPathOf bp (binds.getD i "")) with e | fs1
    · exact absurd hmk (mkdirp_ne_error _ _ (by simp [hb.1]) e)
    · dsimp only
      have hb1 : benignFS fs1 := benignFS_of_FsLe (mkdirp_ok _ _ _ hmk).1 hb
      rcases hoc : fs1.openCheck (fullNameOf bp (binds.getD i "")) with _ | e
      · exact ⟨rfl, hb1⟩
      · rcases e with _ | msg
        · dsimp only
          rcases hwr : fs1.writeFile (fullNameOf bp (binds.getD i "")) "" with e | fs2
          · exact absurd hwr (writeFile_ne_error _ _ _ (by simp [hb1.2.2]) e)
          · dsimp only
            have habs2 : assocGet fs1.files (fullNameOf bp (binds.getD i "")) = none :=
              openCheck_enoent_absent _ _ hoc
            exact ⟨rfl, benignFS_of_FsLe (writeFile_ok_mono _ _ _ _ habs2 hwr).1 hb1⟩
        · rcases openCheck_benign fs1 (fullNameOf bp (binds.getD i "")) (by simp [hb1.2.1]) with h | h
          · rw [hoc] at h
            cases h
          · rw [hoc] at h
            cases h
  · rw [if_neg habs]
    exact ⟨rfl, hb⟩

theorem cbpf1_step_noop (bp : BindProps) (binds : List String) (i : Nat)
    (cfg : Config) (fs : FSModel) (hb : benignFS fs)
    (hp : startsWithSlash (binds.getD i "") = true →
      fullPathOf bp (binds.getD i "") ∈ fs.dirs ∧
        (assocGet fs.files (fullNameOf bp (binds.getD i ""))).isSome = true) :
    (cbpf1_step bp binds i cfg fs).fs = fs ∧
      (cbpf1_step bp binds i cfg fs).err = none := by
  simp only [cbpf1_step]
  by_cases habs : startsWithSlash (binds.getD i "") = true
  · rw [if_pos habs]
    obtain ⟨hdir, hfile⟩ := hp habs
    rw [mkdirp_noop fs _ (by simp [hb.1]) hdir]
    dsimp only
    rw [openCheck_none_of_present fs _ (by simp [hb.2.1]) hfile]
    exact ⟨rfl, rfl⟩
  · rw [if_neg habs]
    exact ⟨rfl, rfl⟩

theorem cbpf1_step_newfiles (bp : BindProps) (binds : List String) (i : Nat)
    (cfg : Config) (fs : FSModel) (p : String)
    (h : (assocGet (cbpf1_step bp binds i cfg fs).fs.files p).isSome = true) :
    (assocGet fs.files p).isSome = true ∨
      (startsWithSlash (binds.getD i "") = true ∧
        p = fullNameOf bp (binds.getD i "")) := by
  revert h
  simp only [cbpf1_step]
  by_cases habs : startsWithSlash (binds.getD i "") = true
  · rw [if_pos habs]
    rcases hmk : fs.mkdirp (fullPathOf bp (binds.getD i "")) with e | fs1
    · exact fun h => Or.inl h
    · dsimp only
      have hfiles1 : fs1.files = fs.files := (mkdirp_ok _ _ _ hmk).2.2
      rcases hoc : fs1.openCheck (fullNameOf bp (binds.getD i "")) with _ | e
      · dsimp only
        rw [hfiles1]
        exact fun h => Or.inl h
      · rcases e with _ | msg
        · dsimp only
          rcases hwr : fs1.writeFile (fullNameOf bp (binds.getD i "")) "" with e | fs2
          · dsimp only
            rw [hfiles1]
            exact fun h => Or.inl h
          · dsimp only
            have h2 := writeFile_ok _ _ _ _ hwr
            subst h2
            dsimp only
            rw [hfiles1]
            intro h
            by_cases hpq : p = fullNameOf bp (binds.getD i "")
            · exact Or.inr ⟨habs, hpq⟩
            · rw [assocGet_assocSet_ne _ _ _ _ (fun hh => hpq hh.symm)] at h
              exact Or.inl h
        · dsimp only
          rw [hfiles1]
          exact fun h => Or.inl h
  · rw [if_neg habs]
    exact fun h => Or.inl h

theorem cbpf1_step_newdirs (bp : BindProps) (binds : List String) (i : Nat)
    (cfg : Config) (fs : FSModel) (d : String)
    (h : d ∈ (cbpf1_step bp binds i cfg fs).fs.dirs) :
    d ∈ fs.dirs ∨
      (startsWithSlash (binds.getD i "") = true ∧
        d = fullPathOf bp (binds.getD i "")) := by
  revert h
  simp only [cbpf1_step]
  by_cases habs : startsWithSlash (binds.getD i "") = true
  · rw [if_pos habs]
    rcases hmk : fs.mkdirp (fullPathOf bp (binds.getD i "")) with e | fs1
    · exact fun h => Or.inl h
    · dsimp only
      have hd1 : ∀ x, x ∈ fs1.dirs → x ∈ fs.dirs ∨ x = fullPathOf bp (binds.getD i "") := by
        intro x
        unfold FSModel.mkdirp at hmk
        split at hmk
        · cases hmk
        · split at hmk
          · cases hmk
            exact fun hx => Or.inl hx
          · cases hmk
            intro hx
            rcases List.mem_append.mp hx with hx | hx
            · exact Or.inl hx
            · exact Or.inr (List.mem_singleton.mp hx)
      rcases hoc : fs1.openCheck (fullNameOf bp (binds.getD i "")) with _ | e
      · exact fun h => (hd1 d h).imp id (fun he => ⟨habs, he⟩)
      · rcases e with _ | msg
        · dsimp only
          rcases hwr : fs1.writeFile (fullNameOf bp (binds.getD i "")) "" with e | fs2
          · exact fun h => (hd1 d h).imp id (fun he => ⟨habs, he⟩)
          · dsimp only
            have h2 := writeFile_ok _ _ _ _ hwr
            subst h2
            exact fun h => (hd1 d h).imp id (fun he => ⟨habs, he⟩)
        · exact fun h => (hd1 d h).imp id (fun he => ⟨habs, he⟩)
  · rw [if_neg habs]
    exact fun h => Or.inl h

theorem cbpf2_step_mono (binds_path : String) (binds : List String) (i : Nat)
    (cfg : Config) (fs : FSModel) :
    FsLe fs (cbpf2_step binds_path binds i cfg fs).fs := by
  simp only [cbpf2_step]
  rcases hmk : fs.mkdirp (fullPathOf2 binds_path (binds.getD i "")) with e | fs1
  · exact FsLe.refl fs
  · dsimp only
    have h1 := (mkdirp_ok _ _ _ hmk).1
    rcases hoc : fs1.openCheck (fullNameOf2 binds_path (binds.getD i "")) with _ | e
    · exact h1
    · rcases e with _ | msg
      · dsimp only
        rcases hwr : fs1.writeFile (fullNameOf2 binds_path (binds.getD i "")) "" with e | fs2
        · exact h1
        · dsimp only
          have habs2 : assocGet fs1.files (fullNameOf2 binds_path (binds.getD i "")) = none :=
            openCheck_enoent_absent _ _ hoc
          exact h1.trans (writeFile_ok_mono _ _ _ _ habs2 hwr).1
      · exact h1

theorem cbpf2_step_binds (binds_path : String) (binds : List String) (i : Nat)
    (cfg : Config) (fs : FSModel)
    (h : (cbpf2_step binds_path binds i cfg fs).err = none) :
    cfgBinds (cbpf2_step binds_path binds i cfg fs).config =
      cfgBinds cfg ++ [bindEntryOf2 binds_path (binds.getD i "")] := by
  revert h
  simp only [cbpf2_step]
  rcases hmk : fs.mkdirp (fullPathOf2 binds_path (binds.getD i "")) with e | fs1
  · intro h
    cases h
  · dsimp only
    rcases hoc : fs1.openCheck (fullNameOf2 binds_path (binds.getD i "")) with _ | e
    · intro _
      simp [cfgBinds_pushBind, cfgBinds_addVolumeKey]
    · rcases e with _ | msg
      · dsimp only
        rcases hwr : fs1.writeFile (fullNameOf2 binds_path (binds.getD i "")) "" with e | fs2
        · intro h
          cases h
        · intro _
          simp [cfgBinds_pushBind, cfgBinds_addVolumeKey]
      · intro h
        cases h

theorem cbpf2_step_provisions (binds_path : String) (binds : List String) (i : Nat)
    (cfg : Config) (fs : FSModel)
    (h : (cbpf2_step binds_path binds i cfg fs).err = none) :
    fullPathOf2 binds_path (binds.getD i "") ∈ (cbpf2_step binds_path binds i cfg fs).fs.dirs ∧
      (assocGet (cbpf2_step binds_path binds i cfg fs).fs.files
        (fullNameOf2 binds_path (binds.getD i ""))).isSome = true := by
  revert h
  simp only [cbpf2_step]
  rcases hmk : fs.mkdirp (fullPathOf2 binds_path (binds.getD i "")) with e | fs1
  · intro h
    cases h
  · dsimp only
    obtain ⟨hle1, hdir1, hfiles1⟩ := mkdirp_ok _ _ _ hmk
    rcases hoc : fs1.openCheck (fullNameOf2 binds_path (binds.getD i "")) with _ | e
    · intro _
      exact ⟨hdir1, openCheck_none_isSome _ _ hoc⟩
    · rcases e with _ | msg
      · dsimp only
        rcases hwr : fs1.writeFile (fullNameOf2 binds_path (binds.getD i "")) "" with e | fs2
        · intro h
          cases h
        · intro _
          have habs2 : assocGet fs1.files (fullNameOf2 binds_path (binds.getD i "")) = none :=
            openCheck_enoent_absent _ _ hoc
          obtain ⟨hle2, hsome⟩ := writeFile_ok_mono _ _ _ _ habs2 hwr
          exact ⟨hle2.1 _ hdir1, hsome⟩
      · intro h
        cases h

theorem cbpf2_step_benign (binds_path : String) (binds : List String) (i : Nat)
    (cfg : Config) (fs : FSModel) (hb : benignFS fs) :
    (cbpf2_step binds_path binds i cfg fs).err = none ∧
      benignFS (cbpf2_step binds_path binds i cfg fs).fs := by
  simp only [cbpf2_step]
  rcases hmk : fs.mkdirp (fullPathOf2 binds_path (binds.getD i "")) with e | fs1
  · exact absurd hmk (mkdirp_ne_error _ _ (by simp [hb.1]) e)
  · dsimp only
    have hb1 : benignFS fs1 := benignFS_of_FsLe (mkdirp_ok _ _ _ hmk).1 hb
    rcases hoc : fs1.openCheck (fullNameOf2 binds_path (binds.getD i "")) with _ | e
    · exact ⟨rfl, hb1⟩
    · rcases e with _ | msg
      · dsimp only
        rcases hwr : fs1.writeFile (fullNameOf2 binds_path (binds.getD i "")) "" with e | fs2
        · exact absurd hwr (writeFile_ne_error _ _ _ (by simp [hb1.2.2]) e)
        · dsimp only
          have habs2 : assocGet fs1.files (fullNameOf2 binds_path (binds.getD i "")) = none :=
            openCheck_enoent_absent _ _ hoc
          exact ⟨rfl, benignFS_of_FsLe (writeFile_ok_mono _ _ _ _ habs2 hwr).1 hb1⟩
      · rcases openCheck_benign fs1 (fullNameOf2 binds_path (binds.getD i "")) (by simp [hb1.2.1]) with h | h
        · rw [hoc] at h
          cases h
        · rw [hoc] at h
          cases h

theorem cbpf2_step_noop (binds_path : String) (binds : List String) (i : Nat)
    (cfg : Config) (fs : FSModel) (hb : benignFS fs)
    (hp : fullPathOf2 binds_path (binds.getD i "") ∈ fs.dirs ∧
      (assocGet fs.files (fullNameOf2 binds_path (binds.getD i ""))).isSome = true) :
    (cbpf2_step binds_path binds i cfg fs).fs = fs ∧
      (cbpf2_step binds_path binds i cfg fs).err = none := by
  simp only [cbpf2_step]
  obtain ⟨hdir, hfile⟩ := hp
  rw [mkdirp_noop fs _ (by simp [hb.1]) hdir]
  dsimp only
  rw [openCheck_none_of_present fs _ (by simp [hb.2.1]) hfile]
  exact ⟨rfl, rfl⟩

theorem cbpfRun_zero (step : Nat → Config → FSModel → CbpfResult) (cfg : Config)
    (fs : FSModel) : cbpfRun step 0 cfg fs = step 0 cfg fs := by
  rw [cbpfRun]
  split <;> rfl

theorem cbpfRun_succ (step : Nat → Config → FSModel → CbpfResult) (c : Nat)
    (cfg : Config) (fs : FSModel) :
    cbpfRun step (c + 1) cfg fs =
      (if (step (c + 1) cfg fs).err.isSome then step (c + 1) cfg fs
       else cbpfRun step c (step (c + 1) cfg fs).config (step (c + 1) cfg fs).fs) := by
  rw [cbpfRun]

theorem cbpfRun_mono (step : Nat → Config → FSModel → CbpfResult)
    (Hmono : ∀ i cfg fs, FsLe fs (step i cfg fs).fs) :
    ∀ count cfg fs, FsLe fs (cbpfRun step count cfg fs).fs := by
  intro count
  induction count with
  | zero =>
    intro cfg fs
    rw [cbpfRun_zero]
    exact Hmono 0 cfg fs
  | succ c ih =>
    intro cfg fs
    rw [cbpfRun_succ]
    split
    · exact Hmono (c + 1) cfg fs
    · exact (Hmono (c + 1) cfg fs).trans (ih _ _)

theorem cbpfRun_binds (step : Nat → Config → FSModel → CbpfResult)
    (el : Nat → List String)
    (Hb : ∀ i cfg fs, (step i cfg fs).err = none →
      cfgBinds (step i cfg fs).config = cfgBinds cfg ++ el i) :
    ∀ count cfg fs, (cbpfRun step count cfg fs).err = none →
      cfgBinds (cbpfRun step count cfg fs).config =
        cfgBinds cfg ++ catEntries el count := by
  intro count
  induction count with
  | zero =>
    intro cfg fs h
    rw [cbpfRun_zero] at h ⊢
    rw [Hb 0 cfg fs h]
    rfl
  | succ c ih =>
    intro cfg fs h
    rw [cbpfRun_succ] at h ⊢
    by_cases hs : (step (c + 1) cfg fs).err.isSome
    · rw [if_pos hs] at h
      rw [Option.isSome_iff_exists] at hs
      obtain ⟨e, he⟩ := hs
      rw [he] at h
      cases h
    · rw [if_neg hs] at h ⊢
      have hnone : (step (c + 1) cfg fs).err = none :=
        Option.not_isSome_iff_eq_none.mp hs
      rw [ih _ _ h, Hb (c + 1) cfg fs hnone, catEntries, List.append_assoc]

theorem cbpfRun_post (step : Nat → Config → FSModel → CbpfResult)
    (P : Nat → FSModel → Prop)
    (Hmono : ∀ i cfg fs, FsLe fs (step i cfg fs).fs)
    (HP : ∀ i cfg fs, (step i cfg fs).err = none → P i (step i cfg fs).fs)
    (HPmono : ∀ i fs fs', FsLe fs fs' → P i fs → P i fs') :
    ∀ count cfg fs, (cbpfRun step count cfg fs).err = none →
      ∀ i, i ≤ count → P i (cbpfRun step count cfg fs).fs := by
  intro count
  induction count with
  | zero =>
    intro cfg fs h i hi
    rw [Nat.le_zero.mp hi]
    rw [cbpfRun_zero] at h ⊢
    exact HP 0 cfg fs h
  | succ c ih =>
    intro cfg fs h i hi
    rw [cbpfRun_succ] at h ⊢
    by_cases hs : (step (c + 1) cfg fs).err.isSome
    · rw [if_pos hs] at h
      rw [Option.isSome_iff_exists] at hs
      obtain ⟨e, he⟩ := hs
      rw [he] at h
      cases h
    · rw [if_neg hs] at h ⊢
      have hnone : (step (c + 1) cfg fs).err = none :=
        Option.not_isSome_iff_eq_none.mp hs
      rcases Nat.lt_or_ge i (c + 1) with hlt | hge
      · exact ih _ _ h i (Nat.lt_succ_iff.mp hlt)
      · have hieq : i = c + 1 := Nat.le_antisymm hi hge
        subst hieq
        exact HPmono _ _ _ (cbpfRun_mono step Hmono c _ _) (HP _ cfg fs hnone)

theorem cbpfRun_benign (step : Nat → Config → FSModel → CbpfResult)
    (Hben : ∀ i cfg fs, benignFS fs →
      (step i cfg fs).err = none ∧ benignFS (step i cfg fs).fs) :
    ∀ count cfg fs, benignFS fs →
      (cbpfRun step count cfg fs).err = none ∧
        benignFS (cbpfRun step count cfg fs).fs := by
  intro count
  induction count with
  | zero =>
    intro cfg fs hb
    rw [cbpfRun_zero]
    exact Hben 0 cfg fs hb
  | succ c ih =>
    intro cfg fs hb
    rw [cbpfRun_succ]
    obtain ⟨hnone, hb1⟩ := Hben (c + 1) cfg fs hb
    rw [if_neg (by rw [hnone]; simp)]
    exact ih _ _ hb1

theorem cbpfRun_noop (step : Nat → Config → FSModel → CbpfResult)
    (P : Nat → FSModel → Prop)
    (Hnoop : ∀ i cfg fs, benignFS fs → P i fs →
      (step i cfg fs).fs = fs ∧ (step i cfg fs).err = none) :
    ∀ count cfg fs, benignFS fs → (∀ i, i ≤ count → P i fs) →
      (cbpfRun step count cfg fs).fs = fs ∧
        (cbpfRun step count cfg fs).err = none := by
  intro count
  induction count with
  | zero =>
    intro cfg fs hb hp
    rw [cbpfRun_zero]
    exact Hnoop 0 cfg fs hb (hp 0 (Nat.le_refl 0))
  | succ c ih =>
    intro cfg fs hb hp
    rw [cbpfRun_succ]
    obtain ⟨hfs, hnone⟩ := Hnoop (c + 1) cfg fs hb (hp (c + 1) (Nat.le_refl _))
    rw [if_neg (by rw [hnone]; simp)]
    rw [hfs]
    exact ih _ _ hb (fun i hi => hp i (Nat.le_succ_of_le hi))

theorem cbpfRun_newfiles (step : Nat → Config → FSModel → CbpfResult)
    (Q : Nat → String → Prop)
    (Hnew : ∀ i cfg fs p, (assocGet (step i cfg fs).fs.files p).isSome = true →
      (assocGet fs.files p).isSome = true ∨ Q i p) :
    ∀ count cfg fs p, (assocGet (cbpfRun step count cfg fs).fs.files p).isSome = true →
      (assocGet fs.files p).isSome = true ∨ ∃ i, i ≤ count ∧ Q i p := by
  intro count
  induction count with
  | zero =>
    intro cfg fs p h
    rw [cbpfRun_zero] at h
    exact (Hnew 0 cfg fs p h).imp id (fun hq => ⟨0, Nat.le_refl 0, hq⟩)
  | succ c ih =>
    intro cfg fs p h
    rw [cbpfRun_succ] at h
    by_cases hs : (step (c + 1) cfg fs).err.isSome
    · rw [if_pos hs] at h
      exact (Hnew (c + 1) cfg fs p h).imp id (fun hq => ⟨c + 1, Nat.le_refl _, hq⟩)
    · rw [if_neg hs] at h
      rcases ih _ _ p h with h1 | ⟨i, hi, hq⟩
      · exact (Hnew (c + 1) cfg fs p h1).imp id (fun hq => ⟨c + 1, Nat.le_refl _, hq⟩)
      · exact Or.inr ⟨i, Nat.le_succ_of_le hi, hq⟩

theorem cbpfRun_newdirs (step : Nat → Config → FSModel → CbpfResult)
    (Q : Nat → String → Prop)
    (Hnew : ∀ i cfg fs d, d ∈ (step i cfg fs).fs.dirs →
      d ∈ fs.dirs ∨ Q i d) :
    ∀ count cfg fs d, d ∈ (cbpfRun step count cfg fs).fs.dirs →
      d ∈ fs.dirs ∨ ∃ i, i ≤ count ∧ Q i d := by
  intro count
  induction count with
  | zero =>
    intro cfg fs d h
    rw [cbpfRun_zero] at h
    exact (Hnew 0 cfg fs d h).imp id (fun hq => ⟨0, Nat.le_refl 0, hq⟩)
  | succ c ih =>
    intro cfg fs d h
    rw [cbpfRun_succ] at h
    by_cases hs : (step (c + 1) cfg fs).err.isSome
    · rw [if_pos hs] at h
      exact (Hnew (c + 1) cfg fs d h).imp id (fun hq => ⟨c + 1, Nat.le_refl _, hq⟩)
    · rw [if_neg hs] at h
      rcases ih _ _ d h with h1 | ⟨i, hi, hq⟩
      · exact (Hnew (c + 1) cfg fs d h1).imp id (fun hq => ⟨c + 1, Nat.le_refl _, hq⟩)
      · exact Or.inr ⟨i, Nat.le_succ_of_le hi, hq⟩

theorem catEntries_filter_map (binds : List String) (pr : String → Bool)
    (g : String → String) :
    ∀ count,
      catEntries (fun i =>
        if pr (binds.getD i "") = true then [g (binds.getD i "")] else []) count =
        ((procOrder binds count).filter pr).map g := by
  intro count
  induction count with
  | zero =>
    rw [catEntries, procOrder]
    rw [List.filter_cons, List.filter_nil]
    by_cases h : pr (binds.getD 0 "") = true
    · rw [if_pos h, if_pos h, List.map_cons]
      rfl
    · rw [if_neg h, if_neg h]
      rfl
  | succ c ih =>
    rw [catEntries, procOrder]
    rw [List.filter_cons]
    by_cases h : pr (binds.getD (c + 1) "") = true
    · rw [if_pos h, if_pos h, ih, List.map_cons, List.singleton_append]
    · rw [if_neg h, if_neg h, ih, List.nil_append]

theorem catEntries_map (binds : List String) (g : String → String) :
    ∀ count,
      catEntries (fun i => [g (binds.getD i "")]) count =
        (procOrder binds count).map g := by
  intro count
  induction count with
  | zero =>
    rw [catEntries, procOrder]
    rfl
  | succ c ih =>
    rw [catEntries, procOrder]
    rw [ih, List.map_cons, List.singleton_append]

theorem procOrder_eq_reverse_take (binds : List String) :
    ∀ c, c < binds.length → procOrder binds c = (binds.take (c + 1)).reverse := by
  intro c
  induction c with
  | zero =>
    intro h
    cases binds with
    | nil => cases h
    | cons b rest => simp [procOrder, List.getD]
  | succ c ih =>
    intro h
    have hc : c < binds.length := Nat.lt_of_succ_lt h
    rw [procOrder, ih hc]
    have hgd : binds.getD (c + 1) "" = binds[c + 1] := by
      rw [List.getD_eq_getElem?_getD, List.getElem?_eq_getElem h]
      rfl
    rw [hgd, @List.take_succ _ binds (c + 1), List.getElem?_eq_getElem h]
    rw [List.reverse_append]
    rfl

theorem procOrder_last (binds : List String) (h : binds ≠ []) :
    procOrder binds (binds.length - 1) = binds.reverse := by
  have hpos : 0 < binds.length := List.length_pos.mpr h
  have hl : binds.length - 1 < binds.length := Nat.sub_lt hpos Nat.one_pos
  rw [procOrder_eq_reverse_take _ _ hl]
  have heq : binds.length - 1 + 1 = binds.length := Nat.succ_pred_eq_of_pos hpos
  rw [heq, List.take_length]

theorem cbpf1_mono (bp : BindProps) (binds : List String) (count : Nat)
    (cfg : Config) (fs : FSModel) :
    FsLe fs (_create_bind_path_and_file bp binds count cfg fs).fs :=
  cbpfRun_mono _ (cbpf1_step_mono bp binds) count cfg fs

theorem cbpf1_binds_eq (bp : BindProps) (binds : List String) (count : Nat)
    (cfg : Config) (fs : FSModel)
    (h : (_create_bind_path_and_file bp binds count cfg fs).err = none) :
    cfgBinds (_create_bind_path_and_file bp binds count cfg fs).config =
      cfgBinds cfg ++
        ((procOrder binds count).filter (fun b => startsWithSlash b)).map
          (fun b => bindEntryOf bp b) := by
  unfold _create_bind_path_and_file at h ⊢
  have hb := cbpfRun_binds (cbpf1_step bp binds)
    (fun i => if startsWithSlash (binds.getD i "") = true then
      [bindEntryOf bp (binds.getD i "")] else [])
    (cbpf1_step_binds bp binds) count cfg fs h
  rw [hb, catEntries_filter_map binds (fun b => startsWithSlash b)
    (fun b => bindEntryOf bp b) count]

theorem cbpf1_provisions (bp : BindProps) (binds : List String) (count : Nat)
    (cfg : Config) (fs : FSModel)
    (h : (_create_bind_path_and_file bp binds count cfg fs).err = none) :
    ∀ i, i ≤ count → startsWithSlash (binds.getD i "") = true →
      fullPathOf bp (binds.getD i "") ∈
          (_create_bind_path_and_file bp binds count cfg fs).fs.dirs ∧
        (assocGet (_create_bind_path_and_file bp binds count cfg fs).fs.files
          (fullNameOf bp (binds.getD i ""))).isSome = true := by
  exact cbpfRun_post (cbpf1_step bp binds)
    (fun i fsx => startsWithSlash (binds.getD i "") = true →
      fullPathOf bp (binds.getD i "") ∈ fsx.dirs ∧
        (assocGet fsx.files (fullNameOf bp (binds.getD i ""))).isSome = true)
    (cbpf1_step_mono bp binds)
    (fun i cfgx fsx hnone habs => cbpf1_step_provisions bp binds i cfgx fsx hnone habs)
    (fun i fsx fsx' hle hp habs => by
      obtain ⟨hd, hf⟩ := hp habs
      obtain ⟨c, hc⟩ := Option.isSome_iff_exists.mp hf
      exact ⟨hle.1 _ hd, Option.isSome_iff_exists.mpr ⟨c, hle.2.1 _ c hc⟩⟩)
    count cfg fs h

theorem cbpf1_benign (bp : BindProps) (binds : List String) (count : Nat)
    (cfg : Config) (fs : FSModel) (hb : benignFS fs) :
    (_create_bind_path_and_file bp binds count cfg fs).err = none ∧
      benignFS (_create_bind_path_and_file bp binds count cfg fs).fs :=
  cbpfRun_benign _ (cbpf1_step_benign bp binds) count cfg fs hb

theorem cbpf1_noop (bp : BindProps) (binds : List String) (count : Nat)
    (cfg : Config) (fs : FSModel) (hb : benignFS fs)
    (hp : ∀ i, i ≤ count → startsWithSlash (binds.getD i "") = true →
      fullPathOf bp (binds.getD i "") ∈ fs.dirs ∧
        (assocGet fs.files (fullNameOf bp (binds.getD i ""))).isSome = true) :
    (_create_bind_path_and_file bp binds count cfg fs).fs = fs ∧
      (_create_bind_path_and_file bp binds count cfg fs).err = none :=
  cbpfRun_noop (cbpf1_step bp binds)
    (fun i fsx => startsWithSlash (binds.getD i "") = true →
      fullPathOf bp (binds.getD i "") ∈ fsx.dirs ∧
        (assocGet fsx.files (fullNameOf bp (binds.getD i ""))).isSome = true)
    (fun i cfgx fsx hbx hpx => cbpf1_step_noop bp binds i cfgx fsx hbx hpx)
    count cfg fs hb hp

theorem cbpf1_newfiles (bp : BindProps) (binds : List String) (count : Nat)
    (cfg : Config) (fs : FSModel) (p : String)
    (h : (assocGet (_create_bind_path_and_file bp binds count cfg fs).fs.files p).isSome = true) :
    (assocGet fs.files p).isSome = true ∨
      ∃ i, i ≤ count ∧ startsWithSlash (binds.getD i "") = true ∧
        p = fullNameOf bp (binds.getD i "") := by
  have := cbpfRun_newfiles (cbpf1_step bp binds)
    (fun i px => startsWithSlash (binds.getD i "") = true ∧
      px = fullNameOf bp (binds.getD i ""))
    (cbpf1_step_newfiles bp binds) count cfg fs p h
  exact this.imp id (fun ⟨i, hi, hq⟩ => ⟨i, hi, hq.1, hq.2⟩)

theorem cbpf1_newdirs (bp : BindProps) (binds : List String) (count : Nat)
    (cfg : Config) (fs : FSModel) (d : String)
    (h : d ∈ (_create_bind_path_and_file bp binds count cfg fs).fs.dirs) :
    d ∈ fs.dirs ∨
      ∃ i, i ≤ count ∧ startsWithSlash (binds.getD i "") = true ∧
        d = fullPathOf bp (binds.getD i "") := by
  have := cbpfRun_newdirs (cbpf1_step bp binds)
    (fun i dx => startsWithSlash (binds.getD i "") = true ∧
      dx = fullPathOf bp (binds.getD i ""))
    (cbpf1_step_newdirs bp binds) count cfg fs d h
  exact this.imp id (fun ⟨i, hi, hq⟩ => ⟨i, hi, hq.1, hq.2⟩)

theorem cbpf2_mono (binds_path : String) (binds : List String) (count : Nat)
    (cfg : Config) (fs : FSModel) :
    FsLe fs (_create_bind_path_and_file_rev2 binds_path binds count cfg fs).fs :=
  cbpfRun_mono _ (cbpf2_step_mono binds_path binds) count cfg fs

theorem cbpf2_binds_eq (binds_path : String) (binds : List String) (count : Nat)
    (cfg : Config) (fs : FSModel)
    (h : (_create_bind_path_and_file_rev2 binds_path binds count cfg fs).err = none) :
    cfgBinds (_create_bind_path_and_file_rev2 binds_path binds count cfg fs).config =
      cfgBinds cfg ++
        (procOrder binds count).map (fun b => bindEntryOf2 binds_path b) := by
  unfold _create_bind_path_and_file_rev2 at h ⊢
  have hb := cbpfRun_binds (cbpf2_step binds_path binds)
    (fun i => [bindEntryOf2 binds_path (binds.getD i "")])
    (cbpf2_step_binds binds_path binds) count cfg fs h
  rw [hb, catEntries_map binds (fun b => bindEntryOf2 binds_path b) count]

theorem cbpf2_provisions (binds_path : String) (binds : List String) (count : Nat)
    (cfg : Config) (fs : FSModel)
    (h : (_create_bind_path_and_file_rev2 binds_path binds count cfg fs).err = none) :
    ∀ i, i ≤ count →
      fullPathOf2 binds_path (binds.getD i "") ∈
          (_create_bind_path_and_file_rev2 binds_path binds count cfg fs).fs.dirs ∧
        (assocGet (_create_bind_path_and_file_rev2 binds_path binds count cfg fs).fs.files
          (fullNameOf2 binds_path (binds.getD i ""))).isSome = true := by
  exact cbpfRun_post (cbpf2_step binds_path binds)
    (fun i fsx =>
      fullPathOf2 binds_path (binds.getD i "") ∈ fsx.dirs ∧
        (assocGet fsx.files (fullNameOf2 binds_path (binds.getD i ""))).isSome = true)
    (cbpf2_step_mono binds_path binds)
    (fun i cfgx fsx hnone => cbpf2_step_provisions binds_path binds i cfgx fsx hnone)
    (fun i fsx fsx' hle hp => by
      obtain ⟨hd, hf⟩ := hp
      obtain ⟨c, hc⟩ := Option.isSome_iff_exists.mp hf
      exact ⟨hle.1 _ hd, Option.isSome_iff_exists.mpr ⟨c, hle.2.1 _ c hc⟩⟩)
    count cfg fs h

theorem cbpf2_benign (binds_path : String) (binds : List String) (count : Nat)
    (cfg : Config) (fs : FSModel) (hb : benignFS fs) :
    (_create_bind_path_and_file_rev2 binds_path binds count cfg fs).err = none ∧
      benignFS (_create_bind_path_and_file_rev2 binds_path binds count cfg fs).fs :=
  cbpfRun_benign _ (cbpf2_step_benign binds_path binds) count cfg fs hb

theorem cbpf2_noop (binds_path : String) (binds : List String) (count : Nat)
    (cfg : Config) (fs : FSModel) (hb : benignFS fs)
    (hp : ∀ i, i ≤ count →
      fullPathOf2 binds_path (binds.getD i "") ∈ fs.dirs ∧
        (assocGet fs.files (fullNameOf2 binds_path (binds.getD i ""))).isSome = true) :
    (_create_bind_path_and_file_rev2 binds_path binds count cfg fs).fs = fs ∧
      (_create_bind_path_and_file_rev2 binds_path binds count cfg fs).err = none :=
  cbpfRun_noop (cbpf2_step binds_path binds)
    (fun i fsx =>
      fullPathOf2 binds_path (binds.getD i "") ∈ fsx.dirs ∧
        (assocGet fsx.files (fullNameOf2 binds_path (binds.getD i ""))).isSome = true)
    (fun i cfgx fsx hbx hpx => cbpf2_step_noop binds_path binds i cfgx fsx hbx hpx)
    count cfg fs hb hp

theorem foldl_preserve {α β : Type} (f : β → α → β) (P : β → Prop)
    (hf : ∀ b a, P b → P (f b a)) : ∀ (l : List α) (b : β), P b → P (l.foldl f b) := by
  intro l
  induction l with
  | nil => exact fun b h => h
  | cons a l ih =>
    intro b h
    exact ih _ (hf b a h)

/-- C1 counterexample: with the cached state of name x being terminated, a
start call whose follow-up inspect reports the daemon state running
overwrites the cached terminated entry, contradicting the claim that no
daemon-reported lifecycle state overwrites terminated through start. -/
theorem c1_start_overwrites_terminated :
    start_states [("x", "terminated")] "x" (some "running") = [("x", "running")] := by
  decide

/-- C1 (amended): once a name maps to terminated, the list-images /
list-containers cache refreshes never overwrite it: the first-revision
refresh nest preserves the terminated entry for every images and containers
answer, and the second-revision refresh preserves it on every name-scoped
refresh.  (get_status never writes the states map at all; start and stop,
however, do overwrite a terminated entry with the daemon-reported state, as
the counterexample shows, and so does the second-revision unscoped
refresh.) -/
theorem c1_terminated_sticky_in_query_installs
    (states0 : List (String × String)) (n : String)
    (h : assocGet states0 n = some "terminated") :
    (∀ images containers,
      assocGet (query_installs_refresh images containers states0).states n =
        some "terminated") ∧
    (∀ containers,
      assocGet (query_installs_refresh_rev2 (some n) containers states0) n =
        some "terminated") := by
  constructor
  · intro images containers
    unfold query_installs_refresh
    refine foldl_preserve _
      (fun acc : QIAcc => assocGet acc.states n = some "terminated") ?_ images _ h
    intro acc image_info hacc
    dsimp only
    refine foldl_preserve _
      (fun acc : QIAcc => assocGet acc.states n = some "terminated") ?_
      image_info.RepoTags acc hacc
    intro acc2 repo_tag hacc2
    dsimp only
    refine foldl_preserve _
      (fun acc : QIAcc => assocGet acc.states n = some "terminated") ?_
      containers acc2 hacc2
    intro acc3 container hacc3
    dsimp only
    by_cases hm : jsReplaceFirstSlash (container.Names.getD 0 "") = (_split repo_tag).repo
    · rw [if_pos hm]
      dsimp only
      by_cases hr : assocGet acc3.states (_split repo_tag).repo = some "terminated"
      · rw [if_pos hr]
        exact hacc3
      · rw [if_neg hr]
        have hne : (_split repo_tag).repo ≠ n := by
          intro hh
          rw [hh] at hr
          exact hr hacc3
        rw [assocGet_assocSet_ne _ _ _ _ hne]
        exact hacc3
    · rw [if_neg hm]
      exact hacc3
  · intro containers
    unfold query_installs_refresh_rev2
    refine foldl_preserve _
      (fun st : List (String × String) => assocGet st n = some "terminated") ?_
      containers states0 h
    intro st container hst
    dsimp only
    by_cases hr : assocGet st n = some "terminated"
    · rw [if_pos hr]
      exact hst
    · exact absurd hst hr

theorem c1_terminated_sticky_in_query_installs_witness :
    assocGet (query_installs_refresh [{ RepoTags := ["app:1.0"] }]
      [{ Names := ["/app"], State := "RUNNING" }] [("app", "terminated")]).states
      "app" = some "terminated" ∧
    assocGet (query_installs_refresh_rev2 (some "app")
      [{ Names := ["/app"], State := "RUNNING" }] [("app", "terminated")])
      "app" = some "terminated" := by
  have h := c1_terminated_sticky_in_query_installs [("app", "terminated")] "app" (by decide)
  exact ⟨h.1 _ _, h.2 _⟩

/-- C2: for every installed name (a nonempty name whose installed tag is
present and truthy) with a cached raw lifecycle state, get_status reports
stopped for the raw states created and exited and reports any other raw
state, in particular running and terminated, unchanged. -/
theorem c2_get_status_state_mapping
    (installed states : List (String × String)) (dv : Option DockerVersion)
    (n t s : String) (hn : n ≠ "") (ht : assocGet installed n = some t)
    (ht2 : t ≠ "") (hs : assocGet states n = some s) :
    (get_status installed states dv (some n)).state =
      some (if s = "created" ∨ s = "exited" then "stopped" else s) := by
  unfold get_status
  simp [jsTruthy, hn, ht, ht2, hs]
  split <;> rfl

theorem c2_get_status_state_mapping_witness :
    (get_status [("app", "1.0")] [("app", "created")] none (some "app")).state =
      some "stopped" ∧
    (get_status [("app", "1.0")] [("app", "exited")] none (some "app")).state =
      some "stopped" ∧
    (get_status [("app", "1.0")] [("app", "running")] none (some "app")).state =
      some "running" ∧
    (get_status [("app", "1.0")] [("app", "terminated")] none (some "app")).state =
      some "terminated" := by
  refine ⟨?_, ?_, ?_, ?_⟩
  · rw [c2_get_status_state_mapping [("app", "1.0")] [("app", "created")] none
      "app" "1.0" "created" (by decide) (by decide) (by decide) (by decide)]
    decide
  · rw [c2_get_status_state_mapping [("app", "1.0")] [("app", "exited")] none
      "app" "1.0" "exited" (by decide) (by decide) (by decide) (by decide)]
    decide
  · rw [c2_get_status_state_mapping [("app", "1.0")] [("app", "running")] none
      "app" "1.0" "running" (by decide) (by decide) (by decide) (by decide)]
    decide
  · rw [c2_get_status_state_mapping [("app", "1.0")] [("app", "terminated")] none
      "app" "1.0" "terminated" (by decide) (by decide) (by decide) (by decide)]
    decide

/-- C10: query_updates is a pure function of the in-memory install record
(by construction it takes no daemon answer at all): with a truthy name it
yields exactly the one entry for that name when the name maps to a (truthy)
tag and the empty map when the name is absent, and with no name it yields
the whole install record, so any reported update tag equals the installed
tag. -/
theorem c10_query_updates_pure (installed : List (String × String)) (n t : String)
    (hn : n ≠ "") :
    (assocGet installed n = some t → t ≠ "" →
      query_updates installed (some n) = [(n, t)]) ∧
    (assocGet installed n = none → query_updates installed (some n) = []) ∧
    query_updates installed none = installed := by
  refine ⟨?_, ?_, ?_⟩
  · intro ht ht2
    unfold query_updates
    simp [jsTruthy, hn, ht, ht2]
  · intro ht
    unfold query_updates
    simp [jsTruthy, hn, ht]
  · unfold query_updates
    simp [jsTruthy]

theorem c10_query_updates_pure_witness :
    query_updates [("a", "1.0")] (some "a") = [("a", "1.0")] ∧
    query_updates [("a", "1.0")] (some "b") = [] ∧
    query_updates [("a", "1.0")] none = [("a", "1.0")] := by
  refine ⟨?_, ?_, ?_⟩
  · exact (c10_query_updates_pure [("a", "1.0")] "a" "1.0" (by decide)).1
      (by decide) (by decide)
  · exact (c10_query_updates_pure [("a", "1.0")] "b" "x" (by decide)).2.1 (by decide)
  · exact (c10_query_updates_pure [("a", "1.0")] "a" "x" (by decide)).2.2

/-- C6: when the per-architecture tag map has no (truthy) entry for the
daemon architecture, install delivers the error string naming the missing
architecture to the completion callback; the outcome is the archError
constructor, so neither the pull/create hand-off (proceed) nor anything
else is reached. -/
theorem c6_missing_arch_error (v : DockerVersion) (img : Image)
    (bp : Option BindProps) (opts : Option InstallOptions) (volume : Option Volume)
    (fs : FSModel) (h : jsTruthy (assocGet img.tags v.Arch) = false) :
    install (some v) (some img) bp opts volume fs =
      .archError ("No image available for \"" ++ v.Arch ++ "\" architecture") := by
  unfold install archMsg
  dsimp only
  rcases ht : assocGet img.tags v.Arch with _ | t
  · rfl
  · rw [ht] at h
    have ht2 : t = "" := by simpa [jsTruthy] using h
    dsimp only
    rw [if_pos ht2]

theorem c6_missing_arch_error_witness :
    install (some { Version := "20.0", Os := "linux", Arch := "arm64" })
      (some { repo := "acme/app", tags := [("amd64", "1.0")],
              config := { Env := none, Volumes := none, HostConfig := none },
              binds := some ["/data/db"] })
      none none none
      { dirs := [], files := [], fail_mkdir := [], fail_open := [], fail_write := [] } =
      .archError "No image available for \"arm64\" architecture" := by
  rw [c6_missing_arch_error _ _ _ _ _ _ (by decide)]
  rfl

/-- C9: the failure branch of install reads the Arch field of the stored
daemon version, so calling install before initialization stored a version
(docker_version undefined) makes the branch itself throw (crash) instead of
delivering an error to the callback; with a stored version the branch, and
install as a whole, never crashes. -/
theorem c9_arch_error_branch_crashes_without_version :
    (∀ image bp opts volume fs,
      install none image bp opts volume fs = InstallOutcome.crash) ∧
    (∀ v image bp opts volume fs,
      install (some v) image bp opts volume fs ≠ InstallOutcome.crash) := by
  constructor
  · intro image bp opts volume fs
    rfl
  · intro v image bp opts volume fs
    unfold install
    dsimp only
    rcases image with _ | img
    · simp
    · dsimp only
      rcases assocGet img.tags v.Arch with _ | t
      · simp
      · dsimp only
        by_cases ht : t = ""
        · rw [if_pos ht]
          simp
        · rw [if_neg ht]
          rcases img.binds with _ | bs
          · rcases bp with _ | bp0 <;> simp
          · rcases bp with _ | bp0
            · simp
            · dsimp only
              rcases bs.length with _ | c
              · simp
              · dsimp only
                rcases (_create_bind_path_and_file { bp0 with volume := volume } bs c
                    (prepBindsConfig (processOptions img.config opts)) fs).err with _ | e
                · simp
                · simp

/-- C8: with an architecture tag present but the binds block not taken
(binds absent, binds an empty list, or no bind root supplied), install
returns without invoking its completion callback and without reaching
pull/create, in both revisions. -/
theorem c8_no_binds_no_callback
    (v : DockerVersion) (img : Image) (bp : Option BindProps)
    (bpath : Option String) (opts : Option InstallOptions) (volume : Option Volume)
    (fs : FSModel)
    (harch : jsTruthy (assocGet img.tags v.Arch) = true)
    (hno1 : img.binds = none ∨ img.binds = some [] ∨ bp = none)
    (hno2 : img.binds = none ∨ img.binds = some [] ∨ bpath = none ∨ bpath = some "") :
    (install (some v) (some img) bp opts volume fs).isNoCallback = true ∧
    (installRev2 (some v) (some img) bpath opts fs).isNoCallback = true := by
  rcases ht : assocGet img.tags v.Arch with _ | t
  · rw [ht] at harch
    simp [jsTruthy] at harch
  · rw [ht] at harch
    have ht2 : ¬(t = "") := by simpa [jsTruthy] using harch
    constructor
    · unfold install
      dsimp only
      rw [ht]
      dsimp only
      rw [if_neg ht2]
      rcases hno1 with hb | hb | hb
      · rw [hb]
        rcases bp with _ | bp0 <;> rfl
      · rw [hb]
        rcases bp with _ | bp0 <;> rfl
      · rw [hb]
        rcases img.binds with _ | bs <;> rfl
    · unfold installRev2
      dsimp only
      rw [ht]
      dsimp only
      rw [if_neg ht2]
      rcases hno2 with hb | hb | hb | hb
      · rw [hb]
        rcases bpath with _ | bpv <;> rfl
      · rw [hb]
        rcases bpath with _ | bpv
        · rfl
        · dsimp only
          by_cases hbv : bpv = ""
          · rw [if_pos hbv]
            rfl
          · rw [if_neg hbv]
            rfl
      · rw [hb]
        rcases img.binds with _ | bs <;> rfl
      · rw [hb]
        rcases img.binds with _ | bs <;> rfl

theorem c8_no_binds_no_callback_witness :
    (install (some { Version := "20.0", Os := "linux", Arch := "amd64" })
      (some { repo := "acme/app", tags := [("amd64", "1.0")],
              config := { Env := none, Volumes := none, HostConfig := none },
              binds := some [] })
      (some { name := "acme/app", root := "/srv/ext", binds_path := "", volume := none })
      none none
      { dirs := [], files := [], fail_mkdir := [], fail_open := [],
        fail_write := [] }).isNoCallback = true ∧
    (installRev2 (some { Version := "20.0", Os := "linux", Arch := "amd64" })
      (some { repo := "acme/app", tags := [("amd64", "1.0")],
              config := { Env := none, Volumes := none, HostConfig := none },
              binds := some [] })
      (some "/srv/ext") none
      { dirs := [], files := [], fail_mkdir := [], fail_open := [],
        fail_write := [] }).isNoCallback = true := by
  exact c8_no_binds_no_callback _ _ _ _ _ _ _ (by decide)
    (Or.inr (Or.inl rfl)) (Or.inr (Or.inl rfl))

/-- C5: on a filesystem with no injected I/O failures, the provisioning walk
(either revision) completes without error, never overwrites an existing file
(every pre-existing file keeps its exact contents), and a second run over
the resulting filesystem completes without error and leaves the filesystem
exactly unchanged. -/
theorem c5_provisioning_idempotent (bp : BindProps) (binds_path : String)
    (binds : List String) (count : Nat) (cfg cfga cfgb cfgc : Config)
    (fs fsb : FSModel) (hb : benignFS fs) (hbb : benignFS fsb) :
    ((_create_bind_path_and_file bp binds count cfg fs).err = none ∧
     (∀ p c2, assocGet fs.files p = some c2 →
        assocGet (_create_bind_path_and_file bp binds count cfg fs).fs.files p =
          some c2) ∧
     (_create_bind_path_and_file bp binds count cfga
        (_create_bind_path_and_file bp binds count cfg fs).fs).err = none ∧
     (_create_bind_path_and_file bp binds count cfga
        (_create_bind_path_and_file bp binds count cfg fs).fs).fs =
       (_create_bind_path_and_file bp binds count cfg fs).fs) ∧
    ((_create_bind_path_and_file_rev2 binds_path binds count cfgb fsb).err = none ∧
     (∀ p c2, assocGet fsb.files p = some c2 →
        assocGet (_create_bind_path_and_file_rev2 binds_path binds count cfgb fsb).fs.files p =
          some c2) ∧
     (_create_bind_path_and_file_rev2 binds_path binds count cfgc
        (_create_bind_path_and_file_rev2 binds_path binds count cfgb fsb).fs).err = none ∧
     (_create_bind_path_and_file_rev2 binds_path binds count cfgc
        (_create_bind_path_and_file_rev2 binds_path binds count cfgb fsb).fs).fs =
       (_create_bind_path_and_file_rev2 binds_path binds count cfgb fsb).fs) := by
  constructor
  · obtain ⟨herr1, hben1⟩ := cbpf1_benign bp binds count cfg fs hb
    have hmono := cbpf1_mono bp binds count cfg fs
    have hprov := cbpf1_provisions bp binds count cfg fs herr1
    obtain ⟨hfs2, herr2⟩ := cbpf1_noop bp binds count cfga
      (_create_bind_path_and_file bp binds count cfg fs).fs hben1 hprov
    exact ⟨herr1, fun p c2 hc => hmono.2.1 p c2 hc, herr2, hfs2⟩
  · obtain ⟨herr1, hben1⟩ := cbpf2_benign binds_path binds count cfgb fsb hbb
    have hmono := cbpf2_mono binds_path binds count cfgb fsb
    have hprov := cbpf2_provisions binds_path binds count cfgb fsb herr1
    obtain ⟨hfs2, herr2⟩ := cbpf2_noop binds_path binds count cfgc
      (_create_bind_path_and_file_rev2 binds_path binds count cfgb fsb).fs hben1 hprov
    exact ⟨herr1, fun p c2 hc => hmono.2.1 p c2 hc, herr2, hfs2⟩

theorem c5_provisioning_idempotent_witness :
    (_create_bind_path_and_file
        { name := "acme/app", root := "/srv/ext", binds_path := "", volume := none }
        ["/data/db"] 0
        (prepBindsConfig { Env := none, Volumes := none, HostConfig := none })
        ((_create_bind_path_and_file
          { name := "acme/app", root := "/srv/ext", binds_path := "", volume := none }
          ["/data/db"] 0
          (prepBindsConfig { Env := none, Volumes := none, HostConfig := none })
          { dirs := [], files := [], fail_mkdir := [], fail_open := [],
            fail_write := [] }).fs)).fs =
      (_create_bind_path_and_file
        { name := "acme/app", root := "/srv/ext", binds_path := "", volume := none }
        ["/data/db"] 0
        (prepBindsConfig { Env := none, Volumes := none, HostConfig := none })
        { dirs := [], files := [], fail_mkdir := [], fail_open := [],
          fail_write := [] }).fs ∧
    (_create_bind_path_and_file_rev2 "/srv/ext" ["/data/db"] 0
        (prepBindsConfig { Env := none, Volumes := none, HostConfig := none })
        ((_create_bind_path_and_file_rev2 "/srv/ext" ["/data/db"] 0
          (prepBindsConfig { Env := none, Volumes := none, HostConfig := none })
          { dirs := [], files := [], fail_mkdir := [], fail_open := [],
            fail_write := [] }).fs)).fs =
      (_create_bind_path_and_file_rev2 "/srv/ext" ["/data/db"] 0
        (prepBindsConfig { Env := none, Volumes := none, HostConfig := none })
        { dirs := [], files := [], fail_mkdir := [], fail_open := [],
          fail_write := [] }).fs := by
  have h := c5_provisioning_idempotent
    { name := "acme/app", root := "/srv/ext", binds_path := "", volume := none }
    "/srv/ext" ["/data/db"] 0
    (prepBindsConfig { Env := none, Volumes := none, HostConfig := none })
    (prepBindsConfig { Env := none, Volumes := none, HostConfig := none })
    (prepBindsConfig { Env := none, Volumes := none, HostConfig := none })
    (prepBindsConfig { Env := none, Volumes := none, HostConfig := none })
    { dirs := [], files := [], fail_mkdir := [], fail_open := [], fail_write := [] }
    { dirs := [], files := [], fail_mkdir := [], fail_open := [], fail_write := [] }
    ⟨rfl, rfl, rfl⟩ ⟨rfl, rfl, rfl⟩
  exact ⟨h.1.2.2.2, h.2.2.2.2⟩

/-- C7: whenever the first-revision provisioning walk stops with an error
(any genuine I/O failure of mkdirp, the existence check, or the file
creation), install delivers exactly that error to the completion callback
(the bindError outcome, so pull/create is never reached), and the
filesystem keeps every directory and every file (with unchanged contents)
it had before the install: no cleanup or rollback happens. -/
theorem c7_bind_io_error_aborts_install
    (v : DockerVersion) (img : Image) (bp0 : BindProps) (opts : Option InstallOptions)
    (volume : Option Volume) (fs : FSModel) (bs : List String) (c : Nat) (e : FsErr)
    (harch : jsTruthy (assocGet img.tags v.Arch) = true)
    (hbinds : img.binds = some bs) (hlen : bs.length = c + 1)
    (herr : (_create_bind_path_and_file { bp0 with volume := volume } bs c
      (prepBindsConfig (processOptions img.config opts)) fs).err = some e) :
    install (some v) (some img) (some bp0) opts volume fs =
      .bindError e
        (_create_bind_path_and_file { bp0 with volume := volume } bs c
          (prepBindsConfig (processOptions img.config opts)) fs).config
        (_create_bind_path_and_file { bp0 with volume := volume } bs c
          (prepBindsConfig (processOptions img.config opts)) fs).fs ∧
    (∀ d, d ∈ fs.dirs →
      d ∈ (_create_bind_path_and_file { bp0 with volume := volume } bs c
        (prepBindsConfig (processOptions img.config opts)) fs).fs.dirs) ∧
    (∀ p c2, assocGet fs.files p = some c2 →
      assocGet (_create_bind_path_and_file { bp0 with volume := volume } bs c
        (prepBindsConfig (processOptions img.config opts)) fs).fs.files p = some c2) := by
  refine ⟨?_, (cbpf1_mono _ _ _ _ _).1, (cbpf1_mono _ _ _ _ _).2.1⟩
  rcases ht : assocGet img.tags v.Arch with _ | t
  · rw [ht] at harch
    simp [jsTruthy] at harch
  · rw [ht] at harch
    have ht2 : ¬(t = "") := by simpa [jsTruthy] using harch
    unfold install
    dsimp only
    rw [ht]
    dsimp only
    rw [if_neg ht2, hbinds]
    dsimp only
    rw [hlen]
    dsimp only
    rw [herr]

theorem c7_bind_io_error_aborts_install_witness :
    install (some { Version := "20.0", Os := "linux", Arch := "amd64" })
      (some { repo := "acme/app", tags := [("amd64", "1.0")],
              config := { Env := none, Volumes := none, HostConfig := none },
              binds := some ["/data/db"] })
      (some { name := "acme/app", root := "/srv/ext", binds_path := "", volume := none })
      none none
      { dirs := [], files := [], fail_mkdir := [], fail_open := [],
        fail_write := ["/srv/ext/data/db"] } =
      .bindError (.ioError "write failed: /srv/ext/data/db")
        (_create_bind_path_and_file
          { name := "acme/app", root := "/srv/ext", binds_path := "", volume := none }
          ["/data/db"] 0
          (prepBindsConfig (processOptions
            { Env := none, Volumes := none, HostConfig := none } none))
          { dirs := [], files := [], fail_mkdir := [], fail_open := [],
            fail_write := ["/srv/ext/data/db"] }).config
        (_create_bind_path_and_file
          { name := "acme/app", root := "/srv/ext", binds_path := "", volume := none }
          ["/data/db"] 0
          (prepBindsConfig (processOptions
            { Env := none, Volumes := none, HostConfig := none } none))
          { dirs := [], files := [], fail_mkdir := [], fail_open := [],
            fail_write := ["/srv/ext/data/db"] }).fs := by
  exact (c7_bind_io_error_aborts_install
    { Version := "20.0", Os := "linux", Arch := "amd64" }
    { repo := "acme/app", tags := [("amd64", "1.0")],
      config := { Env := none, Volumes := none, HostConfig := none },
      binds := some ["/data/db"] }
    { name := "acme/app", root := "/srv/ext", binds_path := "", volume := none }
    none none
    { dirs := [], files := [], fail_mkdir := [], fail_open := [],
      fail_write := ["/srv/ext/data/db"] }
    ["/data/db"] 0 (.ioError "write failed: /srv/ext/data/db")
    (by decide) rfl rfl (by decide)).1

/-- C4 counterexample: in the second-revision walk (started because the last
declared bind is absolute) a non-absolute bind is not skipped: for the
declared binds x and /a with binds path /srv/, the walk creates the backing
file /srv/x for the non-absolute bind x, contradicting the claim that
file/dir creation happens exactly for binds whose path begins with a slash
and that non-absolute binds are silently skipped for creation. -/
theorem c4_rev2_walk_creates_file_for_non_absolute_bind :
    startsWithSlash "x" = false ∧
    (assocGet (_create_bind_path_and_file_rev2 "/srv/" ["x", "/a"] 1
      (prepBindsConfig { Env := none, Volumes := none, HostConfig := none })
      { dirs := [], files := [], fail_mkdir := [], fail_open := [],
        fail_write := [] }).fs.files "/srv/x").isSome = true := by
  decide

/-- C4 (amended): both revisions of the walk visit the declared binds from
the last to the first exhaustively and, on a failure-free filesystem, never
error even when files or directories already exist.  In the first revision
the walk appends exactly one bind entry per absolute bind (in reverse
declaration order) and creates files and directories only at the host paths
of absolute binds, silently skipping non-absolute binds.  In the second
revision the walk appends one entry for every visited bind, absolute or
not (only the last declared bind is checked for absoluteness, before the
walk starts, by install). -/
theorem c4_walk_order_and_absolute_filter
    (bp : BindProps) (binds_path : String) (binds : List String)
    (cfg cfgb : Config) (fs fsb : FSModel)
    (hne : binds ≠ []) (hb : benignFS fs) (hbb : benignFS fsb) :
    ((_create_bind_path_and_file bp binds (binds.length - 1) cfg fs).err = none ∧
     cfgBinds (_create_bind_path_and_file bp binds (binds.length - 1) cfg fs).config =
       cfgBinds cfg ++
         (binds.reverse.filter (fun b => startsWithSlash b)).map
           (fun b => bindEntryOf bp b) ∧
     (∀ p, (assocGet (_create_bind_path_and_file bp binds
          (binds.length - 1) cfg fs).fs.files p).isSome = true →
        (assocGet fs.files p).isSome = true ∨
          ∃ b, b ∈ binds ∧ startsWithSlash b = true ∧ p = fullNameOf bp b) ∧
     (∀ d, d ∈ (_create_bind_path_and_file bp binds (binds.length - 1) cfg fs).fs.dirs →
        d ∈ fs.dirs ∨
          ∃ b, b ∈ binds ∧ startsWithSlash b = true ∧ d = fullPathOf bp b)) ∧
    ((_create_bind_path_and_file_rev2 binds_path binds
        (binds.length - 1) cfgb fsb).err = none ∧
     cfgBinds (_create_bind_path_and_file_rev2 binds_path binds
        (binds.length - 1) cfgb fsb).config =
       cfgBinds cfgb ++ binds.reverse.map (fun b => bindEntryOf2 binds_path b)) := by
  have hpos : 0 < binds.length := List.length_pos.mpr hne
  have hmem : ∀ i, i ≤ binds.length - 1 → binds.getD i "" ∈ binds := by
    intro i hi
    have hilt : i < binds.length := by omega
    rw [List.getD_eq_getElem?_getD, List.getElem?_eq_getElem hilt]
    exact List.getElem_mem hilt
  constructor
  · obtain ⟨herr, hben⟩ := cbpf1_benign bp binds (binds.length - 1) cfg fs hb
    refine ⟨herr, ?_, ?_, ?_⟩
    · rw [cbpf1_binds_eq bp binds (binds.length - 1) cfg fs herr, procOrder_last binds hne]
    · intro p hp
      rcases cbpf1_newfiles bp binds (binds.length - 1) cfg fs p hp with h1 | ⟨i, hi, habs, hpe⟩
      · exact Or.inl h1
      · exact Or.inr ⟨binds.getD i "", hmem i hi, habs, hpe⟩
    · intro d hd
      rcases cbpf1_newdirs bp binds (binds.length - 1) cfg fs d hd with h1 | ⟨i, hi, habs, hde⟩
      · exact Or.inl h1
      · exact Or.inr ⟨binds.getD i "", hmem i hi, habs, hde⟩
  · obtain ⟨herr, hben⟩ := cbpf2_benign binds_path binds (binds.length - 1) cfgb fsb hbb
    refine ⟨herr, ?_⟩
    rw [cbpf2_binds_eq binds_path binds (binds.length - 1) cfgb fsb herr,
      procOrder_last binds hne]

theorem c4_walk_order_and_absolute_filter_witness :
    cfgBinds (_create_bind_path_and_file
        { name := "acme/app", root := "/srv/ext", binds_path := "", volume := none }
        ["rel", "/data/db"] 1
        (prepBindsConfig { Env := none, Volumes := none, HostConfig := none })
        { dirs := [], files := [], fail_mkdir := [], fail_open := [],
          fail_write := [] }).config = ["/srv/ext/data/db:/data/db"] ∧
    cfgBinds (_create_bind_path_and_file_rev2 "/srv/ext"
        ["rel", "/data/db"] 1
        (prepBindsConfig { Env := none, Volumes := none, HostConfig := none })
        { dirs := [], files := [], fail_mkdir := [], fail_open := [],
          fail_write := [] }).config =
      ["/srv/ext/data/db:/data/db", "/srv/extrel:rel"] := by
  have h := c4_walk_order_and_absolute_filter
    { name := "acme/app", root := "/srv/ext", binds_path := "", volume := none }
    "/srv/ext" ["rel", "/data/db"]
    (prepBindsConfig { Env := none, Volumes := none, HostConfig := none })
    (prepBindsConfig { Env := none, Volumes := none, HostConfig := none })
    { dirs := [], files := [], fail_mkdir := [], fail_open := [], fail_write := [] }
    { dirs := [], files := [], fail_mkdir := [], fail_open := [], fail_write := [] }
    (by decide) ⟨rfl, rfl, rfl⟩ ⟨rfl, rfl, rfl⟩
  constructor
  · rw [show (1 : Nat) = ["rel", "/data/db"].length - 1 from rfl, h.1.2.1]
    decide
  · rw [show (1 : Nat) = ["rel", "/data/db"].length - 1 from rfl, h.2.2]
    decide

/-- C3: whenever install (first revision, with declared binds and a bind
root) reaches the pull/create hand-off (proceed outcome), every declared
absolute bind has its host directory present and its backing file present
in the resulting filesystem, and the assembled bind-mount list is the
descriptor's initial list followed by exactly one host:container entry per
absolute bind (in reverse declaration order), plus the read-only volume
mount when a sibling volume was resolved and the list is nonempty. -/
theorem c3_install_provisions_binds
    (v : DockerVersion) (img : Image) (bp0 : BindProps) (opts : Option InstallOptions)
    (volume : Option Volume) (fs : FSModel) (rt : String) (cfg2 : Config) (fs2 : FSModel)
    (h : install (some v) (some img) (some bp0) opts volume fs = .proceed rt cfg2 fs2) :
    (∀ b ∈ img.binds.getD [], startsWithSlash b = true →
      fullPathOf { bp0 with volume := volume } b ∈ fs2.dirs ∧
        (assocGet fs2.files (fullNameOf { bp0 with volume := volume } b)).isSome = true) ∧
    cfgBinds cfg2 =
      (cfgBinds (prepBindsConfig (processOptions img.config opts)) ++
        ((img.binds.getD []).reverse.filter (fun b => startsWithSlash b)).map
          (fun b => bindEntryOf { bp0 with volume := volume } b)) ++
      (match volume with
        | some vol =>
          if (cfgBinds (prepBindsConfig (processOptions img.config opts)) ++
              ((img.binds.getD []).reverse.filter (fun b => startsWithSlash b)).map
                (fun b => bindEntryOf { bp0 with volume := volume } b)).length ≠ 0 then
            [vol.name ++ ":" ++ bp0.root ++ ":ro"]
          else []
        | none => []) := by
  rcases ht : assocGet img.tags v.Arch with _ | t
  · unfold install at h
    dsimp only at h
    rw [ht] at h
    exact absurd h (by simp)
  · unfold install at h
    dsimp only at h
    rw [ht] at h
    dsimp only at h
    by_cases ht2 : t = ""
    · rw [if_pos ht2] at h
      exact absurd h (by simp)
    · rw [if_neg ht2] at h
      rcases hbinds : img.binds with _ | bs
      · rw [hbinds] at h
        dsimp only at h
        exact absurd h (by simp)
      · rw [hbinds] at h
        dsimp only at h
        rcases hlen : bs.length with _ | c
        · rw [hlen] at h
          dsimp only at h
          exact absurd h (by simp)
        · rw [hlen] at h
          dsimp only at h
          rcases herr : (_create_bind_path_and_file { bp0 with volume := volume } bs c
              (prepBindsConfig (processOptions img.config opts)) fs).err with _ | e
          · rw [herr] at h
            dsimp only at h
            rw [InstallOutcome.proceed.injEq] at h
            obtain ⟨hrt, hcfg, hfs⟩ := h
            subst hcfg
            subst hfs
            have hbsne : bs ≠ [] := by
              intro hh
              rw [hh] at hlen
              cases hlen
            have hpo : procOrder bs c = bs.reverse := by
              have hc : c = bs.length - 1 := by omega
              rw [hc]
              exact procOrder_last bs hbsne
            have hbe := cbpf1_binds_eq { bp0 with volume := volume } bs c
              (prepBindsConfig (processOptions img.config opts)) fs herr
            rw [hpo] at hbe
            constructor
            · simp only [hbinds, Option.getD_some]
              intro b hbmem habs
              obtain ⟨i, hilt, hbi⟩ := List.getElem_of_mem hbmem
              have hile : i ≤ c := by omega
              have hgd : bs.getD i "" = b := by
                rw [List.getD_eq_getElem?_getD, List.getElem?_eq_getElem hilt, hbi]
                rfl
              have hgot := cbpf1_provisions { bp0 with volume := volume } bs c
                (prepBindsConfig (processOptions img.config opts)) fs herr i hile
              rw [hgd] at hgot
              exact hgot habs
            · simp only [hbinds, Option.getD_some]
              rcases volume with _ | vol
              · dsimp only
                rw [hbe, List.append_nil]
              · dsimp only
                rw [hbe]
                by_cases hc0 :
                  (cfgBinds (prepBindsConfig (processOptions img.config opts)) ++
                    (bs.reverse.filter (fun b => startsWithSlash b)).map
                      (fun b => bindEntryOf { bp0 with volume := some vol } b)).length ≠ 0
                · rw [if_pos hc0, if_pos hc0]
                  rw [cfgBinds_pushBind, cfgBinds_addVolumeKey, hbe]
                · rw [if_neg hc0, if_neg hc0, hbe, List.append_nil]
          · rw [herr] at h
            dsimp only at h
            exact absurd h (by simp)

theorem c3_install_provisions_binds_witness :
    ("/srv/ext/data" ∈
      (["/srv/ext/data"] : List String) ∧
      (assocGet [("/srv/ext/data/db", "")] "/srv/ext/data/db").isSome = true) ∧
    cfgBinds { Env := none, Volumes := some ["/data/db"],
               HostConfig := some { Devices := none,
                                    Binds := some ["/srv/ext/data/db:/data/db"] } } =
      ["/srv/ext/data/db:/data/db"] := by
  have h := c3_install_provisions_binds
    { Version := "20.0", Os := "linux", Arch := "amd64" }
    { repo := "acme/app", tags := [("amd64", "1.0")],
      config := { Env := none, Volumes := none, HostConfig := none },
      binds := some ["/data/db"] }
    { name := "acme/app", root := "/srv/ext", binds_path := "", volume := none }
    none none
    { dirs := [], files := [], fail_mkdir := [], fail_open := [], fail_write := [] }
    "acme/app:1.0"
    { Env := none, Volumes := some ["/data/db"],
      HostConfig := some { Devices := none,
                           Binds := some ["/srv/ext/data/db:/data/db"] } }
    { dirs := ["/srv/ext/data"], files := [("/srv/ext/data/db", "")],
      fail_mkdir := [], fail_open := [], fail_write := [] }
    (by decide)
  constructor
  · exact h.1 "/data/db" (by decide) (by decide)
  · rw [h.2]
    decide
